import Mathlib

/-!
# unifimacreset: the `GET /reset/:searchMac` handler

A shallow embedding of the request handler of `unifimacreset.go` (lines 49-209).

The handler talks to two things: the UniFi controller (four HTTP calls) and the gin
context (response writes).  Both are recorded, in program order, in a log of events.
A Go panic (nil dereference of a missing `*http.Response` or `*http.Request`, failed
type assertion on decoded JSON) ends the handler; what gin's recovery middleware does
after it is not part of the handler.  `AbortWithStatusJSON` writes the response and
returns to its caller, so the embedding goes on after it as the handler does.

Standard-library functions the handler calls are parameters (`GoLib`); the controller
is a function from the calls made so far and the present call to a reply.
-/

namespace UnifiMacReset

/-! ## Data model -/

/-- Go `float64`, the type `json.Unmarshal` gives every JSON number when it decodes
into `interface{}`; kept as its IEEE-754 bit pattern. -/
structure Float64 where
  bits : Nat
deriving DecidableEq, Repr

/-- What `json.Unmarshal` stores into an `interface{}`: `nil`, `bool`, `float64`,
`string`, `[]interface{}` or `map[string]interface{}`. -/
inductive JVal where
  | null
  | bool (b : Bool)
  | num (x : Float64)
  | str (s : String)
  | arr (xs : List JVal)
  | obj (kvs : List (String × JVal))

/-- Type assertion `x.(map[string]interface{})`; `none` is the panic. -/
def JVal.asMap : JVal → Option (List (String × JVal))
  | .obj kvs => some kvs
  | _ => none

/-- Type assertion `x.([]interface{})`; `none` is the panic. -/
def JVal.asSlice : JVal → Option (List JVal)
  | .arr xs => some xs
  | _ => none

/-- Type assertion `x.(string)`; `none` is the panic. -/
def JVal.asString : JVal → Option String
  | .str s => some s
  | _ => none

/-- Type assertion `x.(bool)`; `none` is the panic. -/
def JVal.asBool : JVal → Option Bool
  | .bool b => some b
  | _ => none

/-- Type assertion `x.(float64)`; `none` is the panic. -/
def JVal.asFloat64 : JVal → Option Float64
  | .num x => some x
  | _ => none

/-- Map index `m[k]` on a `map[string]interface{}`: a missing key gives `nil`. -/
def index (m : List (String × JVal)) (k : String) : JVal :=
  (m.lookup k).getD JVal.null

/-- The fields of `ConfigSpecification` (lines 17-22). -/
structure ConfigSpecification where
  Debug : Bool
  BaseURL : String
  Username : String
  Password : String

/-- The struct `ResponseData` (lines 30-33), the JSON body of every response. -/
structure ResponseData where
  Success : Bool
  Message : String
deriving DecidableEq, Repr

/-- The struct `ResetData` (lines 35-39), the JSON body of the device command. -/
structure ResetData where
  MacAddress : String
  Port : Int
  Command : String
deriving DecidableEq, Repr

/-- An HTTP call to the controller, one constructor per call site of the handler:
`client.Do` at line 77, `client.Get` at lines 94 and 129, `client.Do` at line 185.
Both POSTs carry the headers `Origin: BaseURL` and `Content-Type: application/json`. -/
inductive Call where
  | login (url username password : String)
  | getSites (url : String)
  | getClients (url : String)
  | devCommand (url : String) (body : ResetData)
deriving DecidableEq, Repr

/-- A response body as a stream: the successive results of reading it to its end
(`ioutil.ReadAll`, `Buffer.ReadFrom`), each the bytes delivered and the read error if
any.  Past the listed reads the stream is at EOF: no bytes, no error. -/
abbrev Body := List (String × Option String)

/-- The fields of `http.Response` the handler looks at. -/
structure Response where
  StatusCode : Nat
  Status : String
  Body : Body

/-- The pair `(resp, err)` returned by `client.Do` / `client.Get`; `resp = none` is the
nil pointer. -/
structure Reply where
  err : Option String
  resp : Option Response

/-- The controller (with the transport to it): its reply to a call, given the calls of
this request made before, oldest first. -/
abbrev Controller := List Call → Call → Reply

/-- What `json.Unmarshal(data, &jsonData)` did: the error it returned and the value it
assigned to `jsonData`, if it assigned one (on a syntax error it assigns nothing). -/
structure Decoded where
  err : Option String
  stored : Option JVal

/-- The Go library functions the handler uses, as parameters.
`cookiejar.New(nil)` and `json.Marshal` of a `map[string]string` or of `ResetData`
never return an error, so lines 53-55, 63-65 and 174-176 are dead and left out. -/
structure GoLib where
  toLower : String → String
  newRequestErr : String → String → Option String
  unmarshal : String → Decoded
  int64 : Float64 → Int

/-- One observable action of the handler. -/
inductive Event where
  | call (c : Call)
  | respond (status : Nat) (body : ResponseData)
deriving DecidableEq, Repr

/-- The handler's variables that outlive a step: the log of events so far, `jsonData`
(line 112, reused at line 150) and `found` (line 110). -/
structure State where
  log : List Event
  jsonData : JVal
  found : Bool

/-- The two run-time panics the handler can raise. -/
inductive Panic where
  | nilDereference
  | typeAssertion
deriving DecidableEq, Repr

/-- A step that either goes on with a value or panics, keeping the state reached. -/
abbrev Exec (α : Type) := Except (Panic × State) α

/-- The result of one request: everything the handler did, and the panic that ended it
if one did. -/
structure Outcome where
  log : List Event
  panic : Option Panic
deriving DecidableEq, Repr

/-! ## The handler -/

/-- The controller calls in a log, oldest first. -/
def callsOf : List Event → List Call
  | [] => []
  | .call c :: es => c :: callsOf es
  | .respond _ _ :: es => callsOf es

/-- A response write: `context.JSON(status, body)`. -/
def State.respond (st : State) (status : Nat) (body : ResponseData) : State :=
  { st with log := st.log ++ [Event.respond status body] }

/-- Each `context.AbortWithStatusJSON(http.StatusBadRequest, ResponseData{Success: false,
Message: msg})`: it writes the response and returns to the handler. -/
def State.abort (st : State) (msg : String) : State :=
  st.respond 400 ⟨false, msg⟩

/-- A call sent to the controller: it is logged and answered from the calls before. -/
def roundTrip (ctl : Controller) (c : Call) (st : State) : Reply × State :=
  (ctl (callsOf st.log) c, { st with log := st.log ++ [Event.call c] })

/-- One read of a body to its end. -/
def readToEnd (b : Body) : (String × Option String) × Body :=
  match b with
  | [] => (("", none), [])
  | r :: rest => (r, rest)

/-- A Go type assertion `x.(T)`, given as the option it yields: `none` panics. -/
def assertType {α : Type} (st : State) (v : Option α) : Exec α :=
  match v with
  | some a => .ok a
  | none => .error (Panic.typeAssertion, st)

/-- Lines 67-71 and 178-182: `http.NewRequest`; on an error the failure is written, the
request is nil and `req.Header.Set` dereferences it. -/
def newRequest (lib : GoLib) (what method url : String) (st : State) : Exec State :=
  match lib.newRequestErr method url with
  | some e => .error (Panic.nilDereference, st.abort (what ++ " - preparing request: " ++ e))
  | none => .ok st

/-- Lines 78-90, 96-108, 131-143 and 186-198, alike but for the words `what` naming the
step: the transport error is written; `defer resp.Body.Close()` dereferences `resp`;
on a status other than 200 the body is read and the failure written (twice when the
read fails too).  Returns the body left to read. -/
def checkReply (what : String) (reply : Reply) (st : State) : Exec (Body × State) :=
  let st1 := match reply.err with
    | some e => st.abort (what ++ ": " ++ e)
    | none => st
  match reply.resp with
  | none => .error (Panic.nilDereference, st1)
  | some resp =>
    if resp.StatusCode ≠ 200 then
      let r := readToEnd resp.Body
      let st2 := match r.1.2 with
        | some e => st1.abort (what ++ ", returned status code: " ++ resp.Status
            ++ ". Error reading returned message: " ++ e)
        | none => st1
      .ok (r.2, st2.abort (what ++ ", returned status code: " ++ resp.Status
            ++ ". Returned message: " ++ r.1.1))
    else .ok (resp.Body, st1)

/-- Lines 113-121 and 145-153: the body is read into a buffer and decoded into
`jsonData`; each error is written and the handler goes on. -/
def decodeInto (lib : GoLib) (what : String) (body : Body) (st : State) : State :=
  let r := (readToEnd body).1
  let st1 := match r.2 with
    | some e => st.abort (what ++ " - reading from response into buffer: " ++ e)
    | none => st
  let d := lib.unmarshal r.1
  let st2 := match d.err with
    | some e => st1.abort (what ++ " - processing JSON: " ++ e)
    | none => st1
  match d.stored with
  | some v => { st2 with jsonData := v }
  | none => st2

/-- The URL of the login call (line 67). -/
def loginURL (config : ConfigSpecification) : String :=
  config.BaseURL ++ "/api/login"

/-- The URL of the sites call (line 94). -/
def sitesURL (config : ConfigSpecification) : String :=
  config.BaseURL ++ "/api/self/sites"

/-- The URL of the clients call of a site (line 129). -/
def clientsURL (config : ConfigSpecification) (siteName : String) : String :=
  config.BaseURL ++ "/api/s/" ++ siteName ++ "/stat/sta"

/-- The URL of the device command of a site (line 178). -/
def devmgrURL (config : ConfigSpecification) (siteName : String) : String :=
  config.BaseURL ++ "/api/s/" ++ siteName ++ "/cmd/devmgr"

/-- The success response of line 200. -/
def successResponse (lib : GoLib) (searchMac : String) : ResponseData :=
  ⟨true, "Successfully reset power to switch port connected to mac address "
    ++ lib.toLower searchMac⟩

/-- The message of line 207. -/
def notFoundMessage (lib : GoLib) (searchMac : String) : String :=
  "No devices found on UniFi server with mac address " ++ lib.toLower searchMac

/-- The body of the inner loop (lines 157-202) for one element of the clients list. -/
def processClient (config : ConfigSpecification) (lib : GoLib) (ctl : Controller)
    (searchMac siteName : String) (clientJSON : JVal) (st : State) : Exec State := do
  let m ← assertType st clientJSON.asMap
  let macAddress ← assertType st (index m "mac").asString
  if lib.toLower macAddress = lib.toLower searchMac then
    let isWired ← assertType st (index m "is_wired").asBool
    if isWired then
      let st1 := { st with found := true }
      let switchMac ← assertType st1 (index m "sw_mac").asString
      let switchPort ← assertType st1 (index m "sw_port").asFloat64
      let resetValues : ResetData := ⟨switchMac, lib.int64 switchPort, "power-cycle"⟩
      let url := devmgrURL config siteName
      let st2 ← newRequest lib "Error requesting reset of switch port" "POST" url st1
      let sent := roundTrip ctl (Call.devCommand url resetValues) st2
      let checked ← checkReply "Error requesting reset of switch port" sent.1 sent.2
      pure (checked.2.respond 200 (successResponse lib searchMac))
    else pure st
  else pure st

/-- The inner loop (line 155) over the clients list. -/
def clientsLoop (config : ConfigSpecification) (lib : GoLib) (ctl : Controller)
    (searchMac siteName : String) : List JVal → State → Exec State
  | [], st => .ok st
  | clientJSON :: rest, st =>
    match processClient config lib ctl searchMac siteName clientJSON st with
    | .ok st1 => clientsLoop config lib ctl searchMac siteName rest st1
    | .error e => .error e

/-- The body of the outer loop (lines 125-203) for one element of the sites list. -/
def processSite (config : ConfigSpecification) (lib : GoLib) (ctl : Controller)
    (searchMac : String) (siteJSON : JVal) (st : State) : Exec State := do
  let m ← assertType st siteJSON.asMap
  let siteName ← assertType st (index m "name").asString
  let sent := roundTrip ctl (Call.getClients (clientsURL config siteName)) st
  let checked ← checkReply "Error getting list of clients from UniFi server" sent.1 sent.2
  let st1 := decodeInto lib "Error getting list of clients from UniFi server"
    checked.1 checked.2
  let clientsData ← assertType st1 st1.jsonData.asMap
  let clients ← assertType st1 (index clientsData "data").asSlice
  clientsLoop config lib ctl searchMac siteName clients st1

/-- The outer loop (line 124) over the sites list. -/
def sitesLoop (config : ConfigSpecification) (lib : GoLib) (ctl : Controller)
    (searchMac : String) : List JVal → State → Exec State
  | [], st => .ok st
  | siteJSON :: rest, st =>
    match processSite config lib ctl searchMac siteJSON st with
    | .ok st1 => sitesLoop config lib ctl searchMac rest st1
    | .error e => .error e

/-- The handler body (lines 50-208) as a step from the empty state. -/
def handlerBody (config : ConfigSpecification) (lib : GoLib) (ctl : Controller)
    (searchMac : String) : Exec State := do
  let st0 : State := ⟨[], JVal.null, false⟩
  let st1 ← newRequest lib "Error logging in to UniFi server" "POST" (loginURL config) st0
  let sent := roundTrip ctl
    (Call.login (loginURL config) config.Username config.Password) st1
  let checked ← checkReply "Error logging in to UniFi server" sent.1 sent.2
  let sent2 := roundTrip ctl (Call.getSites (sitesURL config)) checked.2
  let checked2 ← checkReply "Error getting list of available sites from UniFi server"
    sent2.1 sent2.2
  let st2 := decodeInto lib "Error getting list of available sites from UniFi server"
    checked2.1 { checked2.2 with found := false }
  let sitesData ← assertType st2 st2.jsonData.asMap
  let sites ← assertType st2 (index sitesData "data").asSlice
  let st3 ← sitesLoop config lib ctl searchMac sites st2
  if !st3.found then pure (st3.abort (notFoundMessage lib searchMac)) else pure st3

/-- The handler of `GET /reset/:searchMac`: what it does for one request. -/
def handler (config : ConfigSpecification) (lib : GoLib) (ctl : Controller)
    (searchMac : String) : Outcome :=
  match handlerBody config lib ctl searchMac with
  | .ok st => ⟨st.log, none⟩
  | .error (p, st) => ⟨st.log, some p⟩

/-- Whether a call is a device-command POST (line 185). -/
def Call.isDevCommand : Call → Bool
  | .devCommand _ _ => true
  | _ => false

/-- The device-command POSTs of a log, oldest first. -/
def postsOf (log : List Event) : List Call :=
  (callsOf log).filter Call.isDevCommand

/-- The device-command POSTs of an outcome, oldest first. -/
def Outcome.posts (o : Outcome) : List Call :=
  postsOf o.log

/-- The response writes of a log, oldest first. -/
def responsesOf : List Event → List (Nat × ResponseData)
  | [] => []
  | .call _ :: es => responsesOf es
  | .respond s b :: es => (s, b) :: responsesOf es

/-- The response writes of an outcome, oldest first. -/
def Outcome.responses (o : Outcome) : List (Nat × ResponseData) :=
  responsesOf o.log

/-- The response writes of a log that report success, oldest first. -/
def successesOf (log : List Event) : List (Nat × ResponseData) :=
  (responsesOf log).filter fun r => r.2.Success

/-! ## Reading the controller's documents

How a sites or clients document is read, field by field, without the panics: used to
say what a controller holds. -/

/-- The list under the key `data` of a document. -/
def dataOf (v : JVal) : Option (List JVal) :=
  v.asMap.bind fun m => (index m "data").asSlice

/-- The `name` of a site record. -/
def siteNameOf (x : JVal) : Option String :=
  x.asMap.bind fun m => (index m "name").asString

/-- The `mac` of a client record. -/
def clientMac (r : JVal) : Option String :=
  r.asMap.bind fun m => (index m "mac").asString

/-- The `is_wired` flag of a client record. -/
def clientWired (r : JVal) : Option Bool :=
  r.asMap.bind fun m => (index m "is_wired").asBool

/-- The `sw_mac` and `sw_port` of a client record, when it has both with the types the
handler asserts. -/
def clientSwitch (r : JVal) : Option (String × Float64) :=
  r.asMap.bind fun m =>
    (index m "sw_mac").asString.bind fun switchMac =>
      (index m "sw_port").asFloat64.map fun switchPort => (switchMac, switchPort)

/-- A client record with a `mac` string and an `is_wired` boolean. -/
def WellFormedClient (r : JVal) : Prop :=
  (clientMac r).isSome = true ∧ (clientWired r).isSome = true

/-- The test of line 160 on a client record: `lower(mac) == lower(searchMac)` and
`is_wired`. -/
def isTarget (lib : GoLib) (searchMac : String) (r : JVal) : Bool :=
  match clientMac r, clientWired r with
  | some macAddress, some true => decide (lib.toLower macAddress = lib.toLower searchMac)
  | _, _ => false

/-- The device command for a client record of a site: POST to the site's `cmd/devmgr`
with `mac = sw_mac`, `port_idx = int64(sw_port)`, `cmd = "power-cycle"`. -/
def commandFor (config : ConfigSpecification) (lib : GoLib) (siteName : String)
    (r : JVal) : Option Call :=
  (clientSwitch r).map fun sw =>
    Call.devCommand (devmgrURL config siteName) ⟨sw.1, lib.int64 sw.2, "power-cycle"⟩

/-- A reply with status 200, no transport error and no read error, whose body decodes
without error to `v`. -/
def Delivers (lib : GoLib) (reply : Reply) (v : JVal) : Prop :=
  ∃ status text rest, reply = ⟨none, some ⟨200, status, (text, none) :: rest⟩⟩
    ∧ lib.unmarshal text = ⟨none, some v⟩

/-- A reply with status 200 and no transport error. -/
def Accepts (reply : Reply) : Prop :=
  ∃ status body, reply = ⟨none, some ⟨200, status, body⟩⟩

/-- The login, sites and clients calls all answer 200 with well-formed JSON, whenever
they are made: the sites document lists the sites `sites`, in this order, and the
clients document of a listed site `n` lists the well-formed client records `clients n`. -/
structure ReadsOK (config : ConfigSpecification) (lib : GoLib) (ctl : Controller)
    (sites : List String) (clients : String → List JVal) : Prop where
  loginRequest : lib.newRequestErr "POST" (loginURL config) = none
  login : ∀ h, Accepts (ctl h (Call.login (loginURL config) config.Username config.Password))
  sitesDoc : ∀ h, ∃ v items, Delivers lib (ctl h (Call.getSites (sitesURL config))) v
    ∧ dataOf v = some items ∧ items.map siteNameOf = sites.map some
  clientsDoc : ∀ h, ∀ n ∈ sites,
    ∃ v, Delivers lib (ctl h (Call.getClients (clientsURL config n))) v
      ∧ dataOf v = some (clients n)
  wellFormed : ∀ n ∈ sites, ∀ r ∈ clients n, WellFormedClient r

/-- The device-command calls of site `n` all answer 200, whenever they are made. -/
structure CommandOK (config : ConfigSpecification) (lib : GoLib) (ctl : Controller)
    (n : String) : Prop where
  request : lib.newRequestErr "POST" (devmgrURL config n) = none
  command : ∀ h body, Accepts (ctl h (Call.devCommand (devmgrURL config n) body))

/-- The client records the handler is to act on: those passing the test of line 160,
site by site in the order of the sites list, within a site in the order of its clients
list, each with the name of its site. -/
def targets (lib : GoLib) (searchMac : String) (sites : List String)
    (clients : String → List JVal) : List (String × JVal) :=
  sites.flatMap fun n => ((clients n).filter (isTarget lib searchMac)).map fun r => (n, r)

/-- What the inner loop does over a clients list when every command is accepted: for
each record passing the test of line 160, its device command and the success response. -/
def clientEvents (config : ConfigSpecification) (lib : GoLib) (searchMac siteName : String)
    (l : List JVal) : List Event :=
  (l.filter (isTarget lib searchMac)).flatMap fun r =>
    match commandFor config lib siteName r with
    | some c => [Event.call c, Event.respond 200 (successResponse lib searchMac)]
    | none => []

/-- What the outer loop does for one site: the clients call, then `clientEvents`. -/
def siteEvents (config : ConfigSpecification) (lib : GoLib) (searchMac : String)
    (clients : String → List JVal) (n : String) : List Event :=
  Event.call (Call.getClients (clientsURL config n))
    :: clientEvents config lib searchMac n (clients n)

/-- A call that is the device command of a record passing the test of line 160, in the
clients list of a listed site, sent to that site. -/
def Justified (config : ConfigSpecification) (lib : GoLib) (searchMac : String)
    (sites : List String) (clients : String → List JVal) (c : Call) : Prop :=
  ∃ n ∈ sites, ∃ r ∈ clients n,
    isTarget lib searchMac r = true ∧ commandFor config lib n r = some c

/-- Events among which every response is the success response, every device command
has its response, and every device command satisfies `J`. -/
def Tidy (lib : GoLib) (searchMac : String) (J : Call → Prop) (evs : List Event) : Prop :=
  (∀ x ∈ responsesOf evs, x = (200, successResponse lib searchMac))
    ∧ (postsOf evs).length = (responsesOf evs).length
    ∧ ∀ c ∈ postsOf evs, J c

/-- The POSTs keep ahead of the success responses from one state to a later one. -/
def Ahead (st st1 : State) : Prop :=
  (successesOf st1.log).length + (postsOf st.log).length
    ≤ (postsOf st1.log).length + (successesOf st.log).length

/-- The same POSTs and success responses in two states. -/
def Level (st st1 : State) : Prop :=
  postsOf st1.log = postsOf st.log ∧ successesOf st1.log = successesOf st.log

/-- A property of the state a step ends in, whether it goes on or panics. -/
def Exec.Ends {α : Type} (r : Exec α) (P : State → Prop) (proj : α → State) : Prop :=
  match r with
  | .ok a => P (proj a)
  | .error e => P e.2

/-! ## A concrete library and concrete controllers -/

/-- ASCII lower-casing, what `strings.ToLower` does on ASCII text such as a MAC. -/
def asciiLower (s : String) : String :=
  String.mk (s.data.map Char.toLower)

/-- Go `int64(x)` of a float64 (line 169): truncation toward zero; out of range (and
for NaN) the result is implementation-dependent, here the amd64 one. -/
def truncInt64 (x : Float64) : Int :=
  let sign := x.bits / 2 ^ 63 % 2
  let e := x.bits / 2 ^ 52 % 2 ^ 11
  let sig := 2 ^ 52 + x.bits % 2 ^ 52
  if e < 1023 then 0
  else if 1086 ≤ e then -(2 ^ 63)
  else
    let mag : Nat := if 1075 ≤ e then sig * 2 ^ (e - 1075) else sig / 2 ^ (1075 - e)
    if sign = 1 then -(mag : Int) else (mag : Int)

/-- A library for the scenarios: ASCII lower-casing, every URL accepted, and a decoder
that knows the listed documents and reports a syntax error on any other text. -/
def scenarioLib (docs : List (String × JVal)) : GoLib where
  toLower := asciiLower
  newRequestErr := fun _ _ => none
  unmarshal := fun s =>
    match docs.lookup s with
    | some v => ⟨none, some v⟩
    | none => ⟨some "unexpected end of JSON input", none⟩
  int64 := truncInt64

/-- A reply with status 200 and the given body. -/
def ok200 (body : String) : Reply :=
  ⟨none, some ⟨200, "200 OK", [(body, none)]⟩⟩

/-- A reply with another status and the given body. -/
def answered (code : Nat) (status body : String) : Reply :=
  ⟨none, some ⟨code, status, [(body, none)]⟩⟩

/-- The number 7 as a float64. -/
def seven : Float64 := ⟨0x401C000000000000⟩

/-- The configuration of the scenarios. -/
def scenarioConfig : ConfigSpecification :=
  ⟨true, "https://unifi", "admin", "password"⟩

/-- A wired client on port 7 of switch `11:22:33:44:55:66`: its JSON text and the
record it decodes to. -/
def wired (mac : String) : String × JVal :=
  ("\x7b\"mac\":\"" ++ mac
      ++ "\",\"is_wired\":true,\"sw_mac\":\"11:22:33:44:55:66\",\"sw_port\":7\x7d",
    JVal.obj [("mac", .str mac), ("is_wired", .bool true),
      ("sw_mac", .str "11:22:33:44:55:66"), ("sw_port", .num seven)])

/-- A wireless client: its JSON text and the record it decodes to. -/
def wireless (mac : String) : String × JVal :=
  ("\x7b\"mac\":\"" ++ mac ++ "\",\"is_wired\":false\x7d",
    JVal.obj [("mac", .str mac), ("is_wired", .bool false)])

/-- A wired client without `sw_mac` and `sw_port`: its JSON text and the record it
decodes to. -/
def bare (mac : String) : String × JVal :=
  ("\x7b\"mac\":\"" ++ mac ++ "\",\"is_wired\":true\x7d",
    JVal.obj [("mac", .str mac), ("is_wired", .bool true)])

/-- A site: its JSON text and the record it decodes to. -/
def site (name : String) : String × JVal :=
  ("\x7b\"name\":\"" ++ name ++ "\"\x7d", JVal.obj [("name", .str name)])

/-- A sites or clients document of the given records: its JSON text and the value it
decodes to. -/
def document (items : List (String × JVal)) : String × JVal :=
  ("\x7b\"data\":[" ++ ",".intercalate (items.map Prod.fst) ++ "]\x7d",
    JVal.obj [("data", .arr (items.map Prod.snd))])

/-- The MAC address of the scenarios. -/
def mac : String := "aa:bb:cc:dd:ee:ff"

/-- The documents the scenarios use. -/
def scenarioDocs : List (String × JVal) :=
  [document [site "default"], document [site "A", site "B"],
    document [wired mac], document [wired "AA:BB:CC:DD:EE:FF"],
    document [wired "00:11:22:33:44:55", wireless mac],
    document [wired mac, wired mac], document [wired mac, wireless mac],
    document [bare mac], document [wired mac, bare mac]]

/-- The library of the scenarios. -/
def stdLib : GoLib := scenarioLib scenarioDocs

/-- A controller that answers each kind of call with a fixed reply, the clients call by
its URL (404 for a URL not listed). -/
def stubController (login sites : Reply) (clients : List (String × Reply))
    (command : Reply) : Controller := fun _ c =>
  match c with
  | .login _ _ _ => login
  | .getSites _ => sites
  | .getClients url => (clients.lookup url).getD (answered 404 "404 Not Found" "")
  | .devCommand _ _ => command

/-- A controller with the one site `default` holding the given clients, accepting
everything. -/
def oneSite (clients : List (String × JVal)) : Controller :=
  stubController (ok200 "") (ok200 (document [site "default"]).1)
    [(clientsURL scenarioConfig "default", ok200 (document clients).1)] (ok200 "")

/-- A controller with the sites `A` and `B`, answering their clients calls as given,
accepting everything else. -/
def twoSites (clientsA clientsB : Reply) : Controller :=
  stubController (ok200 "") (ok200 (document [site "A", site "B"]).1)
    [(clientsURL scenarioConfig "A", clientsA), (clientsURL scenarioConfig "B", clientsB)]
    (ok200 "")

/-- Scenario 1 of the specification but with a controller that answers the device
command with 500. -/
def failingCommand : Controller :=
  stubController (ok200 "") (ok200 (document [site "default"]).1)
    [(clientsURL scenarioConfig "default", ok200 (document [wired mac]).1)]
    (answered 500 "500 Internal Server Error" "boom")

/-- The body of the 401 of scenario 4 of the specification. -/
def loginRequired : String :=
  "\x7b\"meta\":\x7b\"msg\":\"api.err.LoginRequired\"\x7d\x7d"

/-- A controller that refuses every call with 401, as one does without a session. -/
def refusing : Controller := fun _ _ =>
  answered 401 "401 Unauthorized" loginRequired

/-- The login call of the scenarios. -/
def loginCall : Event :=
  .call (.login "https://unifi/api/login" "admin" "password")

/-- The sites call of the scenarios. -/
def sitesCall : Event :=
  .call (.getSites "https://unifi/api/self/sites")

/-- The clients call of a site in the scenarios. -/
def clientsCall (name : String) : Event :=
  .call (.getClients ("https://unifi/api/s/" ++ name ++ "/stat/sta"))

/-- The device command of the scenarios' wired client, sent to a site. -/
def powerCycle (name : String) : Event :=
  .call (.devCommand ("https://unifi/api/s/" ++ name ++ "/cmd/devmgr")
    ⟨"11:22:33:44:55:66", 7, "power-cycle"⟩)

/-- The success response for the scenarios' MAC. -/
def resetDone : Event :=
  .respond 200 ⟨true,
    "Successfully reset power to switch port connected to mac address aa:bb:cc:dd:ee:ff"⟩

/-! ## Lemmas -/

theorem processClient_lower (config : ConfigSpecification) (lib : GoLib) (ctl : Controller)
    (s1 s2 siteName : String) (h : lib.toLower s1 = lib.toLower s2) (c : JVal) (st : State) :
    processClient config lib ctl s1 siteName c st
      = processClient config lib ctl s2 siteName c st := by
  simp only [processClient, successResponse, h]

theorem clientsLoop_lower (config : ConfigSpecification) (lib : GoLib) (ctl : Controller)
    (s1 s2 siteName : String) (h : lib.toLower s1 = lib.toLower s2) (l : List JVal) :
    ∀ st, clientsLoop config lib ctl s1 siteName l st
      = clientsLoop config lib ctl s2 siteName l st := by
  induction l with
  | nil => intro st; rfl
  | cons c rest ih =>
    intro st
    simp only [clientsLoop, processClient_lower config lib ctl s1 s2 siteName h, ih]

theorem processSite_lower (config : ConfigSpecification) (lib : GoLib) (ctl : Controller)
    (s1 s2 : String) (h : lib.toLower s1 = lib.toLower s2) (c : JVal) (st : State) :
    processSite config lib ctl s1 c st = processSite config lib ctl s2 c st := by
  simp only [processSite, clientsLoop_lower config lib ctl s1 s2 _ h]

theorem sitesLoop_lower (config : ConfigSpecification) (lib : GoLib) (ctl : Controller)
    (s1 s2 : String) (h : lib.toLower s1 = lib.toLower s2) (l : List JVal) :
    ∀ st, sitesLoop config lib ctl s1 l st = sitesLoop config lib ctl s2 l st := by
  induction l with
  | nil => intro st; rfl
  | cons c rest ih =>
    intro st
    simp only [sitesLoop, processSite_lower config lib ctl s1 s2 h, ih]

theorem handlerBody_lower (config : ConfigSpecification) (lib : GoLib) (ctl : Controller)
    (s1 s2 : String) (h : lib.toLower s1 = lib.toLower s2) :
    handlerBody config lib ctl s1 = handlerBody config lib ctl s2 := by
  simp only [handlerBody, notFoundMessage, sitesLoop_lower config lib ctl s1 s2 h, h]


theorem callsOf_append (a b : List Event) : callsOf (a ++ b) = callsOf a ++ callsOf b := by
  induction a with
  | nil => rfl
  | cons e es ih => cases e <;> simp [callsOf, ih]

theorem responsesOf_append (a b : List Event) :
    responsesOf (a ++ b) = responsesOf a ++ responsesOf b := by
  induction a with
  | nil => rfl
  | cons e es ih => cases e <;> simp [responsesOf, ih]

theorem postsOf_append (a b : List Event) : postsOf (a ++ b) = postsOf a ++ postsOf b := by
  simp [postsOf, callsOf_append]

theorem successesOf_append (a b : List Event) :
    successesOf (a ++ b) = successesOf a ++ successesOf b := by
  simp [successesOf, responsesOf_append]

theorem level_refl (st : State) : Level st st := ⟨rfl, rfl⟩

theorem level_trans {a b c : State} (h1 : Level a b) (h2 : Level b c) : Level a c :=
  ⟨h2.1.trans h1.1, h2.2.trans h1.2⟩

theorem level_ahead {a b : State} (h : Level a b) : Ahead a b := by
  unfold Ahead; rw [h.1, h.2]; omega

theorem ahead_refl (st : State) : Ahead st st := by
  unfold Ahead; omega

theorem ahead_trans {a b c : State} (h1 : Ahead a b) (h2 : Ahead b c) : Ahead a c := by
  unfold Ahead at *; omega

theorem level_abort (st : State) (msg : String) : Level st (st.abort msg) := by
  simp [Level, State.abort, State.respond, postsOf, successesOf, callsOf_append,
    responsesOf_append, callsOf, responsesOf]

theorem level_found (st : State) (b : Bool) : Level st { st with found := b } := ⟨rfl, rfl⟩

theorem newRequest_level (lib : GoLib) (what method url : String) (st : State) :
    (newRequest lib what method url st).Ends (Level st) id := by
  unfold newRequest
  cases lib.newRequestErr method url with
  | none => exact level_refl st
  | some e => exact level_abort st _

theorem checkReply_level (what : String) (reply : Reply) (st : State) :
    (checkReply what reply st).Ends (Level st) Prod.snd := by
  unfold checkReply
  have h1 : Level st (match reply.err with
      | some e => st.abort (what ++ ": " ++ e)
      | none => st) := by
    cases reply.err with
    | none => exact level_refl st
    | some e => exact level_abort st _
  cases reply.resp with
  | none => exact h1
  | some resp =>
    simp only
    split
    · refine level_trans (level_trans h1 ?_) (level_abort _ _)
      cases (readToEnd resp.Body).1.2 with
      | none => exact level_refl _
      | some e => exact level_abort _ _
    · exact h1

theorem decodeInto_level (lib : GoLib) (what : String) (body : Body) (st : State) :
    Level st (decodeInto lib what body st) := by
  unfold decodeInto
  have h1 : Level st (match (readToEnd body).1.2 with
      | some e => st.abort (what ++ " - reading from response into buffer: " ++ e)
      | none => st) := by
    cases (readToEnd body).1.2 with
    | none => exact level_refl st
    | some e => exact level_abort st _
  simp only
  generalize (match (readToEnd body).1.2 with
      | some e => st.abort (what ++ " - reading from response into buffer: " ++ e)
      | none => st) = s1 at h1
  have h2 : Level s1 (match (lib.unmarshal (readToEnd body).1.1).err with
      | some e => s1.abort (what ++ " - processing JSON: " ++ e)
      | none => s1) := by
    cases (lib.unmarshal (readToEnd body).1.1).err with
    | none => exact level_refl _
    | some e => exact level_abort _ _
  generalize (match (lib.unmarshal (readToEnd body).1.1).err with
      | some e => s1.abort (what ++ " - processing JSON: " ++ e)
      | none => s1) = s2 at h2
  cases (lib.unmarshal (readToEnd body).1.1).stored with
  | none => exact level_trans h1 h2
  | some v => exact level_trans h1 (level_trans h2 ⟨rfl, rfl⟩)


theorem ends_assert {α β : Type} (st : State) (v : Option α) (f : α → Exec β)
    (P : State → Prop) (proj : β → State) (h0 : P st) (h : ∀ a, (f a).Ends P proj) :
    (assertType st v >>= f).Ends P proj := by
  cases v with
  | none => exact h0
  | some a => exact h a

theorem ends_bind {α β : Type} (r : Exec α) (f : α → Exec β) (P Q : State → Prop)
    (pa : α → State) (proj : β → State) (hr : r.Ends Q pa) (herr : ∀ s, Q s → P s)
    (h : ∀ a, Q (pa a) → (f a).Ends P proj) : (r >>= f).Ends P proj := by
  cases r with
  | error e => exact herr _ hr
  | ok a => exact h a hr

theorem ahead_call (st : State) (c : Call) :
    Ahead st { st with log := st.log ++ [Event.call c] } := by
  unfold Ahead
  simp only [postsOf_append, successesOf_append, List.length_append]
  have : successesOf [Event.call c] = [] := rfl
  rw [this]
  simp only [List.length_nil]
  omega

theorem ahead_command (a b c : State) (url : String) (body : ResetData) (r : ResponseData)
    (n : Nat) (h1 : Level a b)
    (h2 : Level { b with log := b.log ++ [Event.call (Call.devCommand url body)] } c) :
    Ahead a (c.respond n r) := by
  unfold Ahead
  have e1 : postsOf (c.respond n r).log
      = postsOf a.log ++ [Call.devCommand url body] := by
    simp only [State.respond, postsOf_append, h2.1, h1.1]
    simp [postsOf, callsOf, Call.isDevCommand]
  have e2 : (successesOf (c.respond n r).log).length ≤ (successesOf a.log).length + 1 := by
    simp only [State.respond, successesOf_append, h2.2, h1.2, List.length_append]
    have : (successesOf [Event.call (Call.devCommand url body)]).length = 0 := rfl
    have : (successesOf [Event.respond n r]).length ≤ 1 := by
      simp only [successesOf, responsesOf]
      exact (List.length_filter_le _ _)
    omega
  rw [e1, List.length_append]
  simp only [List.length_singleton]
  omega

theorem processClient_ahead (config : ConfigSpecification) (lib : GoLib) (ctl : Controller)
    (searchMac siteName : String) (c : JVal) (st : State) :
    (processClient config lib ctl searchMac siteName c st).Ends (Ahead st) id := by
  unfold processClient
  refine ends_assert _ _ _ _ _ (ahead_refl st) (fun m => ?_)
  refine ends_assert _ _ _ _ _ (ahead_refl st) (fun mac => ?_)
  split
  · refine ends_assert _ _ _ _ _ (ahead_refl st) (fun w => ?_)
    split
    · refine ends_assert _ _ _ _ _ (level_ahead (level_found st true)) (fun sm => ?_)
      refine ends_assert _ _ _ _ _ (level_ahead (level_found st true)) (fun sp => ?_)
      refine ends_bind _ _ _ (Level st) id id (newRequest_level _ _ _ _ _) ?_ ?_
      · intro s hs; exact level_ahead hs
      · intro st2 h2
        refine ends_bind _ _ _
          (Level { st2 with log := st2.log ++ [Event.call (Call.devCommand
            (devmgrURL config siteName) ⟨sm, lib.int64 sp, "power-cycle"⟩)] })
          Prod.snd id (checkReply_level _ _ _) ?_ ?_
        · intro s hs
          exact ahead_trans (level_ahead h2) (ahead_trans (ahead_call _ _) (level_ahead hs))
        · intro a ha
          exact ahead_command st st2 a.2 _ _ _ _ h2 ha
    · exact ahead_refl st
  · exact ahead_refl st

theorem clientsLoop_ahead (config : ConfigSpecification) (lib : GoLib) (ctl : Controller)
    (searchMac siteName : String) (l : List JVal) :
    ∀ st, (clientsLoop config lib ctl searchMac siteName l st).Ends (Ahead st) id := by
  induction l with
  | nil => intro st; exact ahead_refl st
  | cons c rest ih =>
    intro st
    have h := processClient_ahead config lib ctl searchMac siteName c st
    unfold clientsLoop
    cases hp : processClient config lib ctl searchMac siteName c st with
    | error e => rw [hp] at h; exact h
    | ok st1 =>
      rw [hp] at h
      have h2 := ih st1
      simp only
      cases hl : clientsLoop config lib ctl searchMac siteName rest st1 with
      | error e => rw [hl] at h2; exact ahead_trans h h2
      | ok st2 => rw [hl] at h2; exact ahead_trans h h2

theorem level_call (st : State) (c : Call) (hc : c.isDevCommand = false) :
    Level st { st with log := st.log ++ [Event.call c] } := by
  simp [Level, postsOf, successesOf, callsOf_append, responsesOf_append, callsOf,
    responsesOf, hc]

theorem processSite_ahead (config : ConfigSpecification) (lib : GoLib) (ctl : Controller)
    (searchMac : String) (c : JVal) (st : State) :
    (processSite config lib ctl searchMac c st).Ends (Ahead st) id := by
  unfold processSite
  refine ends_assert _ _ _ _ _ (ahead_refl st) (fun m => ?_)
  refine ends_assert _ _ _ _ _ (ahead_refl st) (fun n => ?_)
  have hc := level_call st (Call.getClients (clientsURL config n)) rfl
  refine ends_bind _ _ _ (Level { st with log := st.log
    ++ [Event.call (Call.getClients (clientsURL config n))] }) Prod.snd id
    (checkReply_level _ _ _) ?_ ?_
  · intro s hs; exact level_ahead (level_trans hc hs)
  · intro a ha
    have hd := level_trans (level_trans hc ha)
      (decodeInto_level lib "Error getting list of clients from UniFi server" a.1 a.2)
    refine ends_assert _ _ _ _ _ (level_ahead hd) (fun cd => ?_)
    refine ends_assert _ _ _ _ _ (level_ahead hd) (fun cl => ?_)
    have hl := clientsLoop_ahead config lib ctl searchMac n cl
      (decodeInto lib "Error getting list of clients from UniFi server" a.1 a.2)
    cases hr : clientsLoop config lib ctl searchMac n cl
      (decodeInto lib "Error getting list of clients from UniFi server" a.1 a.2) with
    | error e => rw [hr] at hl; exact ahead_trans (level_ahead hd) hl
    | ok s => rw [hr] at hl; exact ahead_trans (level_ahead hd) hl

theorem sitesLoop_ahead (config : ConfigSpecification) (lib : GoLib) (ctl : Controller)
    (searchMac : String) (l : List JVal) :
    ∀ st, (sitesLoop config lib ctl searchMac l st).Ends (Ahead st) id := by
  induction l with
  | nil => intro st; exact ahead_refl st
  | cons c rest ih =>
    intro st
    have h := processSite_ahead config lib ctl searchMac c st
    unfold sitesLoop
    cases hp : processSite config lib ctl searchMac c st with
    | error e => rw [hp] at h; exact h
    | ok st1 =>
      rw [hp] at h
      have h2 := ih st1
      simp only
      cases hl : sitesLoop config lib ctl searchMac rest st1 with
      | error e => rw [hl] at h2; exact ahead_trans h h2
      | ok st2 => rw [hl] at h2; exact ahead_trans h h2

theorem handlerBody_ahead (config : ConfigSpecification) (lib : GoLib) (ctl : Controller)
    (searchMac : String) :
    (handlerBody config lib ctl searchMac).Ends (Ahead ⟨[], JVal.null, false⟩) id := by
  unfold handlerBody
  refine ends_bind _ _ _ (Level ⟨[], JVal.null, false⟩) id id (newRequest_level _ _ _ _ _) ?_ ?_
  · intro s hs; exact level_ahead hs
  · intro st1 h1
    have hc := level_call st1 (Call.login (loginURL config) config.Username config.Password) rfl
    refine ends_bind _ _ _ (Level { st1 with log := st1.log ++ [Event.call
      (Call.login (loginURL config) config.Username config.Password)] }) Prod.snd id
      (checkReply_level _ _ _) ?_ ?_
    · intro s hs; exact level_ahead (level_trans h1 (level_trans hc hs))
    · intro a ha
      have h2 := level_trans h1 (level_trans hc ha)
      have hc2 := level_call a.2 (Call.getSites (sitesURL config)) rfl
      refine ends_bind _ _ _ (Level { a.2 with log := a.2.log ++ [Event.call
        (Call.getSites (sitesURL config))] }) Prod.snd id (checkReply_level _ _ _) ?_ ?_
      · intro s hs; exact level_ahead (level_trans h2 (level_trans hc2 hs))
      · intro b hb
        have h3 := level_trans h2 (level_trans hc2 hb)
        have h4 := level_trans (level_trans h3 (level_found b.2 false))
          (decodeInto_level lib "Error getting list of available sites from UniFi server"
            b.1 { b.2 with found := false })
        refine ends_assert _ _ _ _ _ (level_ahead h4) (fun sd => ?_)
        refine ends_assert _ _ _ _ _ (level_ahead h4) (fun sl => ?_)
        refine ends_bind _ _ _ (Ahead ⟨[], JVal.null, false⟩) id id ?_ (fun s hs => hs) ?_
        · have hl := sitesLoop_ahead config lib ctl searchMac sl
            (decodeInto lib "Error getting list of available sites from UniFi server"
              b.1 { b.2 with found := false })
          cases hr : sitesLoop config lib ctl searchMac sl
            (decodeInto lib "Error getting list of available sites from UniFi server"
              b.1 { b.2 with found := false }) with
          | error e => rw [hr] at hl; exact ahead_trans (level_ahead h4) hl
          | ok s => rw [hr] at hl; exact ahead_trans (level_ahead h4) hl
        · intro st3 h5
          split
          · exact ahead_trans h5 (level_ahead (level_abort st3 _))
          · exact h5

theorem handler_successes_le_posts (config : ConfigSpecification) (lib : GoLib)
    (ctl : Controller) (searchMac : String) :
    (successesOf (handler config lib ctl searchMac).log).length
      ≤ (handler config lib ctl searchMac).posts.length := by
  have h := handlerBody_ahead config lib ctl searchMac
  unfold handler Outcome.posts
  cases hb : handlerBody config lib ctl searchMac with
  | error e =>
    rw [hb] at h
    have : Ahead ⟨[], JVal.null, false⟩ e.2 := h
    unfold Ahead at this
    simpa [postsOf, successesOf, callsOf, responsesOf] using this
  | ok st =>
    rw [hb] at h
    have : Ahead ⟨[], JVal.null, false⟩ st := h
    unfold Ahead at this
    simpa [postsOf, successesOf, callsOf, responsesOf] using this


theorem checkReply_accepts (what : String) (reply : Reply) (st : State) (h : Accepts reply) :
    ∃ body, checkReply what reply st = .ok (body, st) := by
  obtain ⟨status, body, rfl⟩ := h
  exact ⟨body, by simp [checkReply]⟩

theorem checkReply_delivers (lib : GoLib) (what : String) (reply : Reply) (v : JVal)
    (st : State) (h : Delivers lib reply v) :
    ∃ body, checkReply what reply st = .ok (body, st)
      ∧ ∀ s : State, decodeInto lib what body s = { s with jsonData := v } := by
  obtain ⟨status, text, rest, rfl, hu⟩ := h
  refine ⟨(text, none) :: rest, by simp [checkReply], ?_⟩
  intro s
  simp [decodeInto, readToEnd, hu]

theorem processClient_skip (config : ConfigSpecification) (lib : GoLib) (ctl : Controller)
    (searchMac siteName : String) (r : JVal) (st : State) (hw : WellFormedClient r)
    (ht : isTarget lib searchMac r = false) :
    processClient config lib ctl searchMac siteName r st = .ok st := by
  cases r with
  | obj kvs =>
    obtain ⟨h1, h2⟩ := hw
    obtain ⟨mac, hmac⟩ := Option.isSome_iff_exists.mp h1
    obtain ⟨w, hwv⟩ := Option.isSome_iff_exists.mp h2
    simp only [clientMac, clientWired, JVal.asMap, Option.some_bind] at hmac hwv
    simp only [isTarget, clientMac, clientWired, JVal.asMap, Option.some_bind, hmac, hwv] at ht
    simp only [processClient, JVal.asMap, assertType, hmac, hwv, bind, Except.bind, pure,
      Except.pure]
    cases w
    · split <;> rfl
    · simp only [decide_eq_false_iff_not] at ht
      simp [ht]
  | null => simp [WellFormedClient, clientMac, JVal.asMap] at hw
  | bool b => simp [WellFormedClient, clientMac, JVal.asMap] at hw
  | num x => simp [WellFormedClient, clientMac, JVal.asMap] at hw
  | str s => simp [WellFormedClient, clientMac, JVal.asMap] at hw
  | arr xs => simp [WellFormedClient, clientMac, JVal.asMap] at hw

theorem isTarget_obj (lib : GoLib) (searchMac : String) (r : JVal)
    (ht : isTarget lib searchMac r = true) :
    ∃ kvs mac, r = JVal.obj kvs ∧ (index kvs "mac").asString = some mac
      ∧ lib.toLower mac = lib.toLower searchMac
      ∧ (index kvs "is_wired").asBool = some true := by
  cases r with
  | obj kvs =>
    simp only [isTarget, clientMac, clientWired, JVal.asMap, Option.some_bind] at ht
    split at ht
    · rename_i mac hmac hwv
      exact ⟨kvs, mac, rfl, hmac, by simpa using ht, hwv⟩
    · exact absurd ht (by simp)
  | null => simp [isTarget, clientMac, JVal.asMap] at ht
  | bool b => simp [isTarget, clientMac, JVal.asMap] at ht
  | num x => simp [isTarget, clientMac, JVal.asMap] at ht
  | str s => simp [isTarget, clientMac, JVal.asMap] at ht
  | arr xs => simp [isTarget, clientMac, JVal.asMap] at ht

theorem processClient_bare (config : ConfigSpecification) (lib : GoLib) (ctl : Controller)
    (searchMac siteName : String) (r : JVal) (st : State)
    (ht : isTarget lib searchMac r = true) (hs : clientSwitch r = none) :
    processClient config lib ctl searchMac siteName r st
      = .error (Panic.typeAssertion, { st with found := true }) := by
  obtain ⟨kvs, mac, rfl, hmac, hlow, hwv⟩ := isTarget_obj lib searchMac r ht
  simp only [clientSwitch, JVal.asMap, Option.some_bind] at hs
  simp only [processClient, JVal.asMap, assertType, hmac, hwv, hlow, bind, Except.bind, pure,
    Except.pure, if_true]
  cases h1 : (index kvs "sw_mac").asString with
  | none => rfl
  | some sm =>
    cases h2 : (index kvs "sw_port").asFloat64 with
    | none => rfl
    | some sp => simp [h1, h2] at hs

theorem processClient_hit (config : ConfigSpecification) (lib : GoLib) (ctl : Controller)
    (searchMac siteName : String) (r : JVal) (st : State) (sw : String × Float64)
    (ht : isTarget lib searchMac r = true) (hs : clientSwitch r = some sw)
    (hc : CommandOK config lib ctl siteName) :
    processClient config lib ctl searchMac siteName r st
      = .ok ⟨st.log ++ [Event.call (Call.devCommand (devmgrURL config siteName)
            ⟨sw.1, lib.int64 sw.2, "power-cycle"⟩),
          Event.respond 200 (successResponse lib searchMac)], st.jsonData, true⟩ := by
  obtain ⟨kvs, mac, rfl, hmac, hlow, hwv⟩ := isTarget_obj lib searchMac r ht
  simp only [clientSwitch, JVal.asMap, Option.some_bind] at hs
  cases h1 : (index kvs "sw_mac").asString with
  | none => simp [h1] at hs
  | some sm =>
    cases h2 : (index kvs "sw_port").asFloat64 with
    | none => simp [h1, h2] at hs
    | some sp =>
      simp only [h1, h2, Option.some_bind, Option.map_some', Option.some.injEq] at hs
      subst hs
      obtain ⟨body, hb⟩ := checkReply_accepts "Error requesting reset of switch port"
        (ctl (callsOf st.log) (Call.devCommand (devmgrURL config siteName)
          ⟨sm, lib.int64 sp, "power-cycle"⟩))
        ⟨st.log ++ [Event.call (Call.devCommand (devmgrURL config siteName)
          ⟨sm, lib.int64 sp, "power-cycle"⟩)], st.jsonData, true⟩ (hc.command _ _)
      simp only [processClient, JVal.asMap, assertType, hmac, hwv, hlow, h1, h2, bind,
        Except.bind, pure, Except.pure, if_true, newRequest, hc.request, roundTrip, hb,
        State.respond, List.append_assoc, List.singleton_append]

theorem clientEvents_cons_skip (config : ConfigSpecification) (lib : GoLib)
    (searchMac siteName : String) (r : JVal) (l : List JVal)
    (h : isTarget lib searchMac r = false) :
    clientEvents config lib searchMac siteName (r :: l)
      = clientEvents config lib searchMac siteName l := by
  simp [clientEvents, List.filter_cons, h]

theorem clientEvents_cons_hit (config : ConfigSpecification) (lib : GoLib)
    (searchMac siteName : String) (r : JVal) (l : List JVal) (sw : String × Float64)
    (h : isTarget lib searchMac r = true) (hs : clientSwitch r = some sw) :
    clientEvents config lib searchMac siteName (r :: l)
      = [Event.call (Call.devCommand (devmgrURL config siteName)
            ⟨sw.1, lib.int64 sw.2, "power-cycle"⟩),
          Event.respond 200 (successResponse lib searchMac)]
        ++ clientEvents config lib searchMac siteName l := by
  simp [clientEvents, List.filter_cons, h, commandFor, hs]

theorem clientEvents_cons_bare (config : ConfigSpecification) (lib : GoLib)
    (searchMac siteName : String) (r : JVal) (l : List JVal)
    (h : isTarget lib searchMac r = true) (hs : clientSwitch r = none) :
    clientEvents config lib searchMac siteName (r :: l)
      = clientEvents config lib searchMac siteName l := by
  simp [clientEvents, List.filter_cons, h, commandFor, hs]

theorem clientsLoop_full (config : ConfigSpecification) (lib : GoLib) (ctl : Controller)
    (searchMac siteName : String) (l : List JVal) :
    ∀ st : State, (∀ r ∈ l, WellFormedClient r)
      → (∀ r ∈ l, isTarget lib searchMac r = true → (clientSwitch r).isSome = true)
      → ((∀ r ∈ l, isTarget lib searchMac r = false) ∨ CommandOK config lib ctl siteName)
      → clientsLoop config lib ctl searchMac siteName l st
        = .ok ⟨st.log ++ clientEvents config lib searchMac siteName l, st.jsonData,
            st.found || l.any (isTarget lib searchMac)⟩ := by
  induction l with
  | nil => intro st _ _ _; simp [clientsLoop, clientEvents]
  | cons r rest ih =>
    intro st hw hf hc
    have hw2 : ∀ x ∈ rest, WellFormedClient x := fun x hx => hw x (List.mem_cons_of_mem _ hx)
    have hf2 : ∀ x ∈ rest, isTarget lib searchMac x = true → (clientSwitch x).isSome = true :=
      fun x hx => hf x (List.mem_cons_of_mem _ hx)
    have hc2 : (∀ x ∈ rest, isTarget lib searchMac x = false)
        ∨ CommandOK config lib ctl siteName :=
      hc.imp (fun h x hx => h x (List.mem_cons_of_mem _ hx)) id
    cases ht : isTarget lib searchMac r with
    | false =>
      simp only [clientsLoop, processClient_skip config lib ctl searchMac siteName r st
        (hw r (List.mem_cons_self _ _)) ht, ih st hw2 hf2 hc2,
        clientEvents_cons_skip config lib searchMac siteName r rest ht, List.any_cons, ht,
        Bool.false_or]
    | true =>
      have hcmd : CommandOK config lib ctl siteName := by
        rcases hc with h | h
        · have := h r (List.mem_cons_self _ _)
          rw [ht] at this
          exact absurd this (by simp)
        · exact h
      obtain ⟨sw, hsw⟩ := Option.isSome_iff_exists.mp (hf r (List.mem_cons_self _ _) ht)
      simp only [clientsLoop, processClient_hit config lib ctl searchMac siteName r st sw ht
        hsw hcmd, ih _ hw2 hf2 hc2,
        clientEvents_cons_hit config lib searchMac siteName r rest sw ht hsw, List.any_cons,
        ht, Bool.true_or, Bool.or_true, List.append_assoc]

theorem tidy_nil (lib : GoLib) (searchMac : String) (J : Call → Prop) :
    Tidy lib searchMac J [] := by
  simp [Tidy, responsesOf, postsOf, callsOf]

theorem tidy_append (lib : GoLib) (searchMac : String) (J : Call → Prop) (a b : List Event)
    (ha : Tidy lib searchMac J a) (hb : Tidy lib searchMac J b) :
    Tidy lib searchMac J (a ++ b) := by
  refine ⟨?_, ?_, ?_⟩
  · intro x hx
    rw [responsesOf_append, List.mem_append] at hx
    rcases hx with h | h
    · exact ha.1 x h
    · exact hb.1 x h
  · rw [postsOf_append, responsesOf_append, List.length_append, List.length_append,
      ha.2.1, hb.2.1]
  · intro c hc
    rw [postsOf_append, List.mem_append] at hc
    rcases hc with h | h
    · exact ha.2.2 c h
    · exact hb.2.2 c h

theorem tidy_command (lib : GoLib) (searchMac url : String) (J : Call → Prop)
    (body : ResetData) (hJ : J (Call.devCommand url body)) :
    Tidy lib searchMac J [Event.call (Call.devCommand url body),
      Event.respond 200 (successResponse lib searchMac)] := by
  simp [Tidy, responsesOf, postsOf, callsOf, Call.isDevCommand, hJ]

theorem tidy_getClients (lib : GoLib) (searchMac url : String) (J : Call → Prop) :
    Tidy lib searchMac J [Event.call (Call.getClients url)] := by
  simp [Tidy, responsesOf, postsOf, callsOf, Call.isDevCommand]

theorem tidy_clientEvents (config : ConfigSpecification) (lib : GoLib)
    (searchMac siteName : String) (J : Call → Prop) (l : List JVal)
    (hJ : ∀ r ∈ l, isTarget lib searchMac r = true
      → ∀ c, commandFor config lib siteName r = some c → J c) :
    Tidy lib searchMac J (clientEvents config lib searchMac siteName l) := by
  induction l with
  | nil => exact tidy_nil lib searchMac J
  | cons r rest ih =>
    have ih2 := ih (fun x hx => hJ x (List.mem_cons_of_mem _ hx))
    cases ht : isTarget lib searchMac r with
    | false => rw [clientEvents_cons_skip config lib searchMac siteName r rest ht]; exact ih2
    | true =>
      cases hs : clientSwitch r with
      | none =>
        rw [clientEvents_cons_bare config lib searchMac siteName r rest ht hs]; exact ih2
      | some sw =>
        rw [clientEvents_cons_hit config lib searchMac siteName r rest sw ht hs]
        refine tidy_append _ _ _ _ _ (tidy_command _ _ _ _ _ ?_) ih2
        exact hJ r (List.mem_cons_self _ _) ht _ (by simp [commandFor, hs])

theorem clientsLoop_bare (config : ConfigSpecification) (lib : GoLib) (ctl : Controller)
    (searchMac siteName : String) (J : Call → Prop)
    (hc : CommandOK config lib ctl siteName) (l : List JVal) :
    ∀ st : State, (∀ r ∈ l, WellFormedClient r)
      → (∀ r ∈ l, isTarget lib searchMac r = true
          → ∀ c, commandFor config lib siteName r = some c → J c)
      → (∃ r ∈ l, isTarget lib searchMac r = true ∧ clientSwitch r = none)
      → ∃ evs st1, Tidy lib searchMac J evs
        ∧ clientsLoop config lib ctl searchMac siteName l st
          = .error (Panic.typeAssertion, st1)
        ∧ st1.log = st.log ++ evs := by
  induction l with
  | nil => intro st _ _ h; obtain ⟨r, hr, _⟩ := h; cases hr
  | cons r rest ih =>
    intro st hw hJ hb
    have hw2 : ∀ x ∈ rest, WellFormedClient x := fun x hx => hw x (List.mem_cons_of_mem _ hx)
    have hJ2 : ∀ x ∈ rest, isTarget lib searchMac x = true
        → ∀ c, commandFor config lib siteName x = some c → J c :=
      fun x hx => hJ x (List.mem_cons_of_mem _ hx)
    cases ht : isTarget lib searchMac r with
    | false =>
      have hb2 : ∃ x ∈ rest, isTarget lib searchMac x = true ∧ clientSwitch x = none := by
        obtain ⟨x, hx, h1, h2⟩ := hb
        rcases List.mem_cons.mp hx with rfl | hx
        · rw [ht] at h1; exact absurd h1 (by simp)
        · exact ⟨x, hx, h1, h2⟩
      obtain ⟨evs, st1, h1, h2, h3⟩ := ih st hw2 hJ2 hb2
      refine ⟨evs, st1, h1, ?_, h3⟩
      simp only [clientsLoop, processClient_skip config lib ctl searchMac siteName r st
        (hw r (List.mem_cons_self _ _)) ht, h2]
    | true =>
      cases hs : clientSwitch r with
      | none =>
        refine ⟨[], { st with found := true }, tidy_nil _ _ _, ?_, by simp⟩
        simp only [clientsLoop, processClient_bare config lib ctl searchMac siteName r st ht hs]
      | some sw =>
        have hb2 : ∃ x ∈ rest, isTarget lib searchMac x = true ∧ clientSwitch x = none := by
          obtain ⟨x, hx, h1, h2⟩ := hb
          rcases List.mem_cons.mp hx with rfl | hx
          · rw [hs] at h2; exact absurd h2 (by simp)
          · exact ⟨x, hx, h1, h2⟩
        obtain ⟨evs, st1, h1, h2, h3⟩ := ih ⟨st.log ++ [Event.call (Call.devCommand
            (devmgrURL config siteName) ⟨sw.1, lib.int64 sw.2, "power-cycle"⟩),
          Event.respond 200 (successResponse lib searchMac)], st.jsonData, true⟩ hw2 hJ2 hb2
        refine ⟨[Event.call (Call.devCommand (devmgrURL config siteName)
            ⟨sw.1, lib.int64 sw.2, "power-cycle"⟩),
          Event.respond 200 (successResponse lib searchMac)] ++ evs, st1,
          tidy_append _ _ _ _ _ (tidy_command _ _ _ _ _ ?_) h1, ?_, ?_⟩
        · exact hJ r (List.mem_cons_self _ _) ht _ (by simp [commandFor, hs])
        · simp only [clientsLoop, processClient_hit config lib ctl searchMac siteName r st sw
            ht hs hc, h2]
        · rw [h3]; simp

theorem siteNameOf_obj (x : JVal) (n : String) (h : siteNameOf x = some n) :
    ∃ kvs, x = JVal.obj kvs ∧ (index kvs "name").asString = some n := by
  cases x with
  | obj kvs => exact ⟨kvs, rfl, by simpa [siteNameOf, JVal.asMap] using h⟩
  | null => simp [siteNameOf, JVal.asMap] at h
  | bool b => simp [siteNameOf, JVal.asMap] at h
  | num x => simp [siteNameOf, JVal.asMap] at h
  | str s => simp [siteNameOf, JVal.asMap] at h
  | arr xs => simp [siteNameOf, JVal.asMap] at h

theorem dataOf_obj (v : JVal) (l : List JVal) (h : dataOf v = some l) :
    ∃ kvs, v = JVal.obj kvs ∧ (index kvs "data").asSlice = some l := by
  cases v with
  | obj kvs => exact ⟨kvs, rfl, by simpa [dataOf, JVal.asMap] using h⟩
  | null => simp [dataOf, JVal.asMap] at h
  | bool b => simp [dataOf, JVal.asMap] at h
  | num x => simp [dataOf, JVal.asMap] at h
  | str s => simp [dataOf, JVal.asMap] at h
  | arr xs => simp [dataOf, JVal.asMap] at h

/-- The clients call of a listed site reaches the inner loop with the site's clients
list. -/
theorem processSite_reads (config : ConfigSpecification) (lib : GoLib) (ctl : Controller)
    (searchMac : String) (sites : List String) (clients : String → List JVal)
    (hro : ReadsOK config lib ctl sites clients) (x : JVal) (n : String) (hmem : n ∈ sites)
    (hn : siteNameOf x = some n) (st : State) :
    ∃ v, processSite config lib ctl searchMac x st
      = clientsLoop config lib ctl searchMac n (clients n)
          ⟨st.log ++ [Event.call (Call.getClients (clientsURL config n))], v, st.found⟩ := by
  obtain ⟨kvs, rfl, hname⟩ := siteNameOf_obj x n hn
  obtain ⟨v, hv, hd⟩ := hro.clientsDoc (callsOf st.log) n hmem
  obtain ⟨m, rfl, hdata⟩ := dataOf_obj v (clients n) hd
  obtain ⟨body, hb, hdec⟩ := checkReply_delivers lib
    "Error getting list of clients from UniFi server" _ _
    ⟨st.log ++ [Event.call (Call.getClients (clientsURL config n))], st.jsonData, st.found⟩ hv
  refine ⟨JVal.obj m, ?_⟩
  simp only [processSite, JVal.asMap, assertType, hname, bind, Except.bind, roundTrip, hb,
    hdec, hdata]

theorem processSite_full (config : ConfigSpecification) (lib : GoLib) (ctl : Controller)
    (searchMac : String) (sites : List String) (clients : String → List JVal)
    (hro : ReadsOK config lib ctl sites clients) (x : JVal) (n : String) (hmem : n ∈ sites)
    (hn : siteNameOf x = some n) (st : State)
    (hf : ∀ r ∈ clients n, isTarget lib searchMac r = true → (clientSwitch r).isSome = true)
    (hc : (∀ r ∈ clients n, isTarget lib searchMac r = false) ∨ CommandOK config lib ctl n) :
    ∃ v, processSite config lib ctl searchMac x st
      = .ok ⟨st.log ++ siteEvents config lib searchMac clients n, v,
          st.found || (clients n).any (isTarget lib searchMac)⟩ := by
  obtain ⟨v, hv⟩ := processSite_reads config lib ctl searchMac sites clients hro x n hmem hn st
  refine ⟨v, ?_⟩
  rw [hv, clientsLoop_full config lib ctl searchMac n (clients n) _
    (fun r hr => hro.wellFormed n hmem r hr) hf hc]
  simp [siteEvents]

theorem justified_of_mem (config : ConfigSpecification) (lib : GoLib) (searchMac : String)
    (sites : List String) (clients : String → List JVal) (n : String) (hmem : n ∈ sites) :
    ∀ r ∈ clients n, isTarget lib searchMac r = true
      → ∀ c, commandFor config lib n r = some c
        → Justified config lib searchMac sites clients c :=
  fun r hr ht _ hc => ⟨n, hmem, r, hr, ht, hc⟩

theorem tidy_siteEvents (config : ConfigSpecification) (lib : GoLib) (searchMac : String)
    (sites : List String) (clients : String → List JVal) (n : String) (hmem : n ∈ sites) :
    Tidy lib searchMac (Justified config lib searchMac sites clients)
      (siteEvents config lib searchMac clients n) :=
  tidy_append _ _ _ [_] _ (tidy_getClients _ _ _ _)
    (tidy_clientEvents _ _ _ _ _ _
      (justified_of_mem config lib searchMac sites clients n hmem))

theorem processSite_bare (config : ConfigSpecification) (lib : GoLib) (ctl : Controller)
    (searchMac : String) (sites : List String) (clients : String → List JVal)
    (hro : ReadsOK config lib ctl sites clients) (x : JVal) (n : String) (hmem : n ∈ sites)
    (hc : CommandOK config lib ctl n) (hn : siteNameOf x = some n) (st : State)
    (hb : ∃ r ∈ clients n, isTarget lib searchMac r = true ∧ clientSwitch r = none) :
    ∃ evs st1, Tidy lib searchMac (Justified config lib searchMac sites clients) evs
      ∧ processSite config lib ctl searchMac x st = .error (Panic.typeAssertion, st1)
      ∧ st1.log = st.log ++ evs := by
  obtain ⟨v, hv⟩ := processSite_reads config lib ctl searchMac sites clients hro x n hmem hn st
  obtain ⟨evs, st1, h1, h2, h3⟩ := clientsLoop_bare config lib ctl searchMac n
    (Justified config lib searchMac sites clients) hc (clients n)
    ⟨st.log ++ [Event.call (Call.getClients (clientsURL config n))], v, st.found⟩
    (fun r hr => hro.wellFormed n hmem r hr)
    (justified_of_mem config lib searchMac sites clients n hmem) hb
  refine ⟨[Event.call (Call.getClients (clientsURL config n))] ++ evs, st1,
    tidy_append _ _ _ _ _ (tidy_getClients _ _ _ _) h1, ?_, ?_⟩
  · rw [hv, h2]
  · rw [h3]; simp

theorem sitesLoop_full (config : ConfigSpecification) (lib : GoLib) (ctl : Controller)
    (searchMac : String) (sites : List String) (clients : String → List JVal)
    (hro : ReadsOK config lib ctl sites clients) (items : List JVal) :
    ∀ (names : List String) (st : State), items.map siteNameOf = names.map some
      → (∀ n ∈ names, n ∈ sites)
      → (∀ n ∈ names, ∀ r ∈ clients n,
          isTarget lib searchMac r = true → (clientSwitch r).isSome = true)
      → ((∀ n ∈ names, ∀ r ∈ clients n, isTarget lib searchMac r = false)
          ∨ ∀ n ∈ names, CommandOK config lib ctl n)
      → ∃ v, sitesLoop config lib ctl searchMac items st
        = .ok ⟨st.log ++ names.flatMap (siteEvents config lib searchMac clients), v,
            st.found || names.any fun n => (clients n).any (isTarget lib searchMac)⟩ := by
  induction items with
  | nil =>
    intro names st hn _ _ _
    cases names with
    | nil => exact ⟨st.jsonData, by simp [sitesLoop]⟩
    | cons n ns => simp at hn
  | cons x rest ih =>
    intro names st hn hsub hf hc
    cases names with
    | nil => simp at hn
    | cons n ns =>
      simp only [List.map_cons, List.cons.injEq] at hn
      obtain ⟨v1, h1⟩ := processSite_full config lib ctl searchMac sites clients hro x n
        (hsub n (List.mem_cons_self _ _)) hn.1 st (hf n (List.mem_cons_self _ _))
        (hc.imp (fun h => h n (List.mem_cons_self _ _)) (fun h => h n (List.mem_cons_self _ _)))
      obtain ⟨v2, h2⟩ := ih ns ⟨st.log ++ siteEvents config lib searchMac clients n, v1,
          st.found || (clients n).any (isTarget lib searchMac)⟩ hn.2
        (fun m hm => hsub m (List.mem_cons_of_mem _ hm))
        (fun m hm => hf m (List.mem_cons_of_mem _ hm))
        (hc.imp (fun h m hm => h m (List.mem_cons_of_mem _ hm))
          (fun h m hm => h m (List.mem_cons_of_mem _ hm)))
      refine ⟨v2, ?_⟩
      simp only [sitesLoop, h1, h2, List.flatMap_cons, List.append_assoc, List.any_cons,
        Bool.or_assoc]

theorem sitesLoop_bare (config : ConfigSpecification) (lib : GoLib) (ctl : Controller)
    (searchMac : String) (sites : List String) (clients : String → List JVal)
    (hro : ReadsOK config lib ctl sites clients) (items : List JVal) :
    ∀ (names : List String) (st : State), items.map siteNameOf = names.map some
      → (∀ n ∈ names, n ∈ sites)
      → (∀ n ∈ names, CommandOK config lib ctl n)
      → (∃ n ∈ names, ∃ r ∈ clients n,
          isTarget lib searchMac r = true ∧ clientSwitch r = none)
      → ∃ evs st1, Tidy lib searchMac (Justified config lib searchMac sites clients) evs
        ∧ sitesLoop config lib ctl searchMac items st = .error (Panic.typeAssertion, st1)
        ∧ st1.log = st.log ++ evs := by
  induction items with
  | nil =>
    intro names st hn _ _ hb
    cases names with
    | nil => obtain ⟨n, hn1, _⟩ := hb; cases hn1
    | cons n ns => simp at hn
  | cons x rest ih =>
    intro names st hn hsub hc hb
    cases names with
    | nil => simp at hn
    | cons n ns =>
      simp only [List.map_cons, List.cons.injEq] at hn
      have hmem : n ∈ sites := hsub n (List.mem_cons_self _ _)
      have hcn : CommandOK config lib ctl n := hc n (List.mem_cons_self _ _)
      by_cases hhere : ∃ r ∈ clients n, isTarget lib searchMac r = true ∧ clientSwitch r = none
      · obtain ⟨evs, st1, h1, h2, h3⟩ := processSite_bare config lib ctl searchMac sites
          clients hro x n hmem hcn hn.1 st hhere
        exact ⟨evs, st1, h1, by simp only [sitesLoop, h2], h3⟩
      · have hf : ∀ r ∈ clients n,
            isTarget lib searchMac r = true → (clientSwitch r).isSome = true := by
          intro r hr ht
          cases hs : clientSwitch r with
          | none => exact absurd ⟨r, hr, ht, hs⟩ hhere
          | some sw => rfl
        obtain ⟨v1, h1⟩ := processSite_full config lib ctl searchMac sites clients hro x n
          hmem hn.1 st hf (Or.inr hcn)
        have hb2 : ∃ m ∈ ns, ∃ r ∈ clients m,
            isTarget lib searchMac r = true ∧ clientSwitch r = none := by
          obtain ⟨m, hm, hr⟩ := hb
          rcases List.mem_cons.mp hm with rfl | hm
          · exact absurd hr hhere
          · exact ⟨m, hm, hr⟩
        obtain ⟨evs, st1, h2, h3, h4⟩ := ih ns
          ⟨st.log ++ siteEvents config lib searchMac clients n, v1,
            st.found || (clients n).any (isTarget lib searchMac)⟩ hn.2
          (fun m hm => hsub m (List.mem_cons_of_mem _ hm))
          (fun m hm => hc m (List.mem_cons_of_mem _ hm)) hb2
        exact ⟨siteEvents config lib searchMac clients n ++ evs, st1,
          tidy_append _ _ _ _ _ (tidy_siteEvents config lib searchMac sites clients n hmem) h2,
          by simp only [sitesLoop, h1, h3], by rw [h4]; simp⟩

/-- The login and sites calls reach the outer loop with the sites list. -/
theorem handlerBody_reads (config : ConfigSpecification) (lib : GoLib) (ctl : Controller)
    (searchMac : String) (sites : List String) (clients : String → List JVal)
    (hro : ReadsOK config lib ctl sites clients) :
    ∃ v items, items.map siteNameOf = sites.map some
      ∧ handlerBody config lib ctl searchMac
        = (sitesLoop config lib ctl searchMac items
            ⟨[Event.call (Call.login (loginURL config) config.Username config.Password),
              Event.call (Call.getSites (sitesURL config))], v, false⟩ >>= fun st3 =>
            if !st3.found then pure (st3.abort (notFoundMessage lib searchMac))
            else pure st3) := by
  obtain ⟨b1, hb1⟩ := checkReply_accepts "Error logging in to UniFi server" _
    ⟨[Event.call (Call.login (loginURL config) config.Username config.Password)],
      JVal.null, false⟩ (hro.login [])
  obtain ⟨v, items, hv, hd, hitems⟩ := hro.sitesDoc
    [Call.login (loginURL config) config.Username config.Password]
  obtain ⟨m, rfl, hdata⟩ := dataOf_obj v items hd
  obtain ⟨b2, hb2, hdec⟩ := checkReply_delivers lib
    "Error getting list of available sites from UniFi server" _ _
    ⟨[Event.call (Call.login (loginURL config) config.Username config.Password),
      Event.call (Call.getSites (sitesURL config))], JVal.null, false⟩ hv
  refine ⟨JVal.obj m, items, hitems, ?_⟩
  simp only [handlerBody, newRequest, hro.loginRequest, bind, Except.bind, roundTrip,
    List.nil_append, callsOf] at hb1 hb2 ⊢
  simp only [hb1, List.singleton_append, callsOf, hb2, hdec, JVal.asMap, assertType, hdata]

/-- The events of a request whose calls all answer well: login, sites, then site by
site the clients call and the commands, and the not-found response if nothing passed
the test of line 160. -/
theorem handler_full (config : ConfigSpecification) (lib : GoLib) (ctl : Controller)
    (searchMac : String) (sites : List String) (clients : String → List JVal)
    (hro : ReadsOK config lib ctl sites clients)
    (hf : ∀ n ∈ sites, ∀ r ∈ clients n,
      isTarget lib searchMac r = true → (clientSwitch r).isSome = true)
    (hc : (∀ n ∈ sites, ∀ r ∈ clients n, isTarget lib searchMac r = false)
      ∨ ∀ n ∈ sites, CommandOK config lib ctl n) :
    handler config lib ctl searchMac
      = ⟨[Event.call (Call.login (loginURL config) config.Username config.Password),
          Event.call (Call.getSites (sitesURL config))]
          ++ sites.flatMap (siteEvents config lib searchMac clients)
          ++ (if (sites.any fun n => (clients n).any (isTarget lib searchMac)) = true then []
              else [Event.respond 400 ⟨false, notFoundMessage lib searchMac⟩]), none⟩ := by
  obtain ⟨v, items, hitems, hb⟩ := handlerBody_reads config lib ctl searchMac sites clients hro
  obtain ⟨v2, hl⟩ := sitesLoop_full config lib ctl searchMac sites clients hro items sites
    ⟨[Event.call (Call.login (loginURL config) config.Username config.Password),
      Event.call (Call.getSites (sitesURL config))], v, false⟩ hitems (fun n hn => hn) hf hc
  simp only [handler, hb, hl, bind, Except.bind, Bool.false_or]
  cases sites.any fun n => (clients n).any (isTarget lib searchMac) <;>
    simp [pure, Except.pure, State.abort, State.respond]

/-- The events of a request whose calls all answer well but where a record passing the
test of line 160 lacks its switch: the handler panics, having written success
responses only. -/
theorem handler_bare (config : ConfigSpecification) (lib : GoLib) (ctl : Controller)
    (searchMac : String) (sites : List String) (clients : String → List JVal)
    (hro : ReadsOK config lib ctl sites clients)
    (hc : ∀ n ∈ sites, CommandOK config lib ctl n)
    (hb : ∃ n ∈ sites, ∃ r ∈ clients n,
      isTarget lib searchMac r = true ∧ clientSwitch r = none) :
    ∃ evs, Tidy lib searchMac (Justified config lib searchMac sites clients) evs
      ∧ handler config lib ctl searchMac
        = ⟨[Event.call (Call.login (loginURL config) config.Username config.Password),
            Event.call (Call.getSites (sitesURL config))] ++ evs,
          some Panic.typeAssertion⟩ := by
  obtain ⟨v, items, hitems, hbody⟩ :=
    handlerBody_reads config lib ctl searchMac sites clients hro
  obtain ⟨evs, st1, h1, h2, h3⟩ := sitesLoop_bare config lib ctl searchMac sites clients hro
    items sites
    ⟨[Event.call (Call.login (loginURL config) config.Username config.Password),
      Event.call (Call.getSites (sitesURL config))], v, false⟩ hitems (fun n hn => hn) hc hb
  refine ⟨evs, h1, ?_⟩
  simp only [handler, hbody, h2, bind, Except.bind, h3]


theorem targets_nil (lib : GoLib) (searchMac : String) (clients : String → List JVal) :
    targets lib searchMac [] clients = [] := rfl

theorem targets_cons (lib : GoLib) (searchMac : String) (clients : String → List JVal)
    (n : String) (ns : List String) :
    targets lib searchMac (n :: ns) clients
      = ((clients n).filter (isTarget lib searchMac)).map (fun r => (n, r))
        ++ targets lib searchMac ns clients := by
  simp [targets, List.flatMap_cons]

theorem posts_clientEvents (config : ConfigSpecification) (lib : GoLib)
    (searchMac n : String) (l : List JVal)
    (hf : ∀ r ∈ l, isTarget lib searchMac r = true → (clientSwitch r).isSome = true) :
    (postsOf (clientEvents config lib searchMac n l)).map some
      = (l.filter (isTarget lib searchMac)).map (commandFor config lib n) := by
  induction l with
  | nil => rfl
  | cons r rest ih =>
    have ih2 := ih (fun x hx => hf x (List.mem_cons_of_mem _ hx))
    cases ht : isTarget lib searchMac r with
    | false =>
      rw [clientEvents_cons_skip config lib searchMac n r rest ht, ih2]
      simp [List.filter_cons, ht]
    | true =>
      obtain ⟨sw, hsw⟩ := Option.isSome_iff_exists.mp (hf r (List.mem_cons_self _ _) ht)
      rw [clientEvents_cons_hit config lib searchMac n r rest sw ht hsw, postsOf_append,
        List.map_append, ih2]
      simp [List.filter_cons, ht, commandFor, hsw, postsOf, callsOf, Call.isDevCommand]

theorem responses_clientEvents (config : ConfigSpecification) (lib : GoLib)
    (searchMac n : String) (l : List JVal)
    (hf : ∀ r ∈ l, isTarget lib searchMac r = true → (clientSwitch r).isSome = true) :
    responsesOf (clientEvents config lib searchMac n l)
      = (l.filter (isTarget lib searchMac)).map
          (fun _ => (200, successResponse lib searchMac)) := by
  induction l with
  | nil => rfl
  | cons r rest ih =>
    have ih2 := ih (fun x hx => hf x (List.mem_cons_of_mem _ hx))
    cases ht : isTarget lib searchMac r with
    | false =>
      rw [clientEvents_cons_skip config lib searchMac n r rest ht, ih2]
      simp [List.filter_cons, ht]
    | true =>
      obtain ⟨sw, hsw⟩ := Option.isSome_iff_exists.mp (hf r (List.mem_cons_self _ _) ht)
      rw [clientEvents_cons_hit config lib searchMac n r rest sw ht hsw, responsesOf_append,
        ih2]
      simp [List.filter_cons, ht, responsesOf]

theorem others_clientEvents (config : ConfigSpecification) (lib : GoLib)
    (searchMac n : String) (l : List JVal) :
    (callsOf (clientEvents config lib searchMac n l)).filter (fun c => !c.isDevCommand)
      = [] := by
  induction l with
  | nil => rfl
  | cons r rest ih =>
    cases ht : isTarget lib searchMac r with
    | false => rw [clientEvents_cons_skip config lib searchMac n r rest ht, ih]
    | true =>
      cases hs : clientSwitch r with
      | none => rw [clientEvents_cons_bare config lib searchMac n r rest ht hs, ih]
      | some sw =>
        rw [clientEvents_cons_hit config lib searchMac n r rest sw ht hs, callsOf_append,
          List.filter_append, ih]
        simp [callsOf, Call.isDevCommand]

theorem posts_scan (config : ConfigSpecification) (lib : GoLib) (searchMac : String)
    (clients : String → List JVal) (names : List String)
    (hf : ∀ n ∈ names, ∀ r ∈ clients n,
      isTarget lib searchMac r = true → (clientSwitch r).isSome = true) :
    (postsOf (names.flatMap (siteEvents config lib searchMac clients))).map some
      = (targets lib searchMac names clients).map
          (fun t => commandFor config lib t.1 t.2) := by
  induction names with
  | nil => rfl
  | cons n ns ih =>
    have ih2 := ih (fun m hm => hf m (List.mem_cons_of_mem _ hm))
    have h1 := posts_clientEvents config lib searchMac n (clients n)
      (hf n (List.mem_cons_self _ _))
    rw [List.flatMap_cons, postsOf_append, List.map_append, ih2, targets_cons,
      List.map_append]
    congr 1
    have : postsOf (siteEvents config lib searchMac clients n)
        = postsOf (clientEvents config lib searchMac n (clients n)) := by
      simp [siteEvents, postsOf, callsOf, Call.isDevCommand]
    rw [this, h1, List.map_map]
    rfl

theorem responses_scan (config : ConfigSpecification) (lib : GoLib) (searchMac : String)
    (clients : String → List JVal) (names : List String)
    (hf : ∀ n ∈ names, ∀ r ∈ clients n,
      isTarget lib searchMac r = true → (clientSwitch r).isSome = true) :
    responsesOf (names.flatMap (siteEvents config lib searchMac clients))
      = List.replicate (targets lib searchMac names clients).length
          (200, successResponse lib searchMac) := by
  induction names with
  | nil => rfl
  | cons n ns ih =>
    have ih2 := ih (fun m hm => hf m (List.mem_cons_of_mem _ hm))
    have h1 := responses_clientEvents config lib searchMac n (clients n)
      (hf n (List.mem_cons_self _ _))
    rw [List.flatMap_cons, responsesOf_append, ih2, targets_cons, List.length_append,
      List.replicate_add]
    congr 1
    have : responsesOf (siteEvents config lib searchMac clients n)
        = responsesOf (clientEvents config lib searchMac n (clients n)) := by
      simp [siteEvents, responsesOf]
    rw [this, h1, List.length_map, List.map_const']

theorem others_scan (config : ConfigSpecification) (lib : GoLib) (searchMac : String)
    (clients : String → List JVal) (names : List String) :
    (callsOf (names.flatMap (siteEvents config lib searchMac clients))).filter
        (fun c => !c.isDevCommand)
      = names.map fun n => Call.getClients (clientsURL config n) := by
  induction names with
  | nil => rfl
  | cons n ns ih =>
    rw [List.flatMap_cons, callsOf_append, List.filter_append, ih]
    have : (callsOf (siteEvents config lib searchMac clients n)).filter
        (fun c => !c.isDevCommand) = [Call.getClients (clientsURL config n)] := by
      have h := others_clientEvents config lib searchMac n (clients n)
      have hg : (!(Call.getClients (clientsURL config n)).isDevCommand) = true := rfl
      simp only [siteEvents, callsOf, List.filter_cons, hg, h, if_true]
    rw [this]
    rfl

theorem any_target_iff (lib : GoLib) (searchMac : String) (clients : String → List JVal)
    (names : List String) :
    (names.any fun n => (clients n).any (isTarget lib searchMac)) = true
      ↔ targets lib searchMac names clients ≠ [] := by
  induction names with
  | nil => simp [targets]
  | cons n ns ih =>
    rw [List.any_cons, Bool.or_eq_true, ih, targets_cons]
    simp only [ne_eq, List.append_eq_nil, List.map_eq_nil_iff, not_and_or]
    refine or_congr ?_ Iff.rfl
    rw [List.any_eq_true, List.filter_eq_nil_iff]
    push_neg
    rfl


/-! ## The scenarios' controllers answer well -/

theorem oneSite_reads (l : List (String × JVal))
    (hdoc : stdLib.unmarshal (document l).1 = ⟨none, some (document l).2⟩)
    (hwf : ∀ r ∈ l.map Prod.snd, WellFormedClient r) :
    ReadsOK scenarioConfig stdLib (oneSite l) ["default"] (fun _ => l.map Prod.snd) where
  loginRequest := rfl
  login := fun _ => ⟨_, _, rfl⟩
  sitesDoc := fun _ => ⟨_, _, ⟨_, _, _, rfl, rfl⟩, rfl, rfl⟩
  clientsDoc := by
    intro h n hn
    rw [List.mem_singleton] at hn
    subst hn
    refine ⟨(document l).2, ⟨"200 OK", (document l).1, [], ?_, hdoc⟩, rfl⟩
    simp [oneSite, stubController, List.lookup, ok200]
  wellFormed := fun _ _ r hr => hwf r hr

theorem twoSites_reads (l : List (String × JVal))
    (hdoc : stdLib.unmarshal (document l).1 = ⟨none, some (document l).2⟩)
    (hwf : ∀ r ∈ l.map Prod.snd, WellFormedClient r) :
    ReadsOK scenarioConfig stdLib (twoSites (ok200 (document l).1) (ok200 (document l).1))
      ["A", "B"] (fun _ => l.map Prod.snd) where
  loginRequest := rfl
  login := fun _ => ⟨_, _, rfl⟩
  sitesDoc := fun _ => ⟨_, _, ⟨_, _, _, rfl, rfl⟩, rfl, rfl⟩
  clientsDoc := by
    intro h n hn
    have hAB : (clientsURL scenarioConfig "B" == clientsURL scenarioConfig "A") = false := by
      decide
    refine ⟨(document l).2, ⟨"200 OK", (document l).1, [], ?_, hdoc⟩, rfl⟩
    simp only [List.mem_cons, List.mem_singleton, List.not_mem_nil, or_false] at hn
    rcases hn with rfl | rfl
    · simp [twoSites, stubController, List.lookup, ok200]
    · simp [twoSites, stubController, List.lookup, ok200, hAB]
  wellFormed := fun _ _ r hr => hwf r hr

theorem scenario_commands (login sites command : Reply) (clients : List (String × Reply))
    (h : Accepts command) (n : String) :
    CommandOK scenarioConfig stdLib (stubController login sites clients command) n where
  request := rfl
  command := fun _ _ => h

/-! ## The claims -/

/-- C1: when the login, sites and clients calls all answer 200 with well-formed JSON and
no client record of any site has `lower(mac) == lower(searchMac)` together with
`is_wired == true` (a record with the MAC but `is_wired == false` included), the handler
makes no device-command POST, and its response is the one write of status 400 with
`success = false` and message "No devices found on UniFi server with mac address "
followed by the lower-cased search MAC. -/
theorem no_wired_match_is_not_found (config : ConfigSpecification) (lib : GoLib)
    (ctl : Controller) (searchMac : String) (sites : List String)
    (clients : String → List JVal) (hro : ReadsOK config lib ctl sites clients)
    (hno : ∀ n ∈ sites, ∀ r ∈ clients n, isTarget lib searchMac r = false) :
    (handler config lib ctl searchMac).posts = []
      ∧ (handler config lib ctl searchMac).responses
        = [(400, ⟨false, "No devices found on UniFi server with mac address "
            ++ lib.toLower searchMac⟩)]
      ∧ (handler config lib ctl searchMac).panic = none := by
  have hf : ∀ n ∈ sites, ∀ r ∈ clients n,
      isTarget lib searchMac r = true → (clientSwitch r).isSome = true := by
    intro n hn r hr ht
    rw [hno n hn r hr] at ht
    exact absurd ht (by simp)
  have hrun := handler_full config lib ctl searchMac sites clients hro hf (Or.inl hno)
  have hnil : targets lib searchMac sites clients = [] := by
    by_contra hne
    have hany := (any_target_iff lib searchMac clients sites).mpr hne
    rw [List.any_eq_true] at hany
    obtain ⟨n, hn, h2⟩ := hany
    rw [List.any_eq_true] at h2
    obtain ⟨r, hr, h3⟩ := h2
    rw [hno n hn r hr] at h3
    exact absurd h3 (by simp)
  have hany : (sites.any fun n => (clients n).any (isTarget lib searchMac)) = false := by
    cases h : sites.any fun n => (clients n).any (isTarget lib searchMac) with
    | false => rfl
    | true => exact absurd hnil ((any_target_iff lib searchMac clients sites).mp h)
  have hp := posts_scan config lib searchMac clients sites hf
  have hr := responses_scan config lib searchMac clients sites hf
  rw [hnil] at hp hr
  simp only [List.map_nil, List.map_eq_nil_iff] at hp
  simp only [List.length_nil, List.replicate_zero] at hr
  rw [hrun]
  refine ⟨?_, ?_, rfl⟩
  · simp only [Outcome.posts, hany, postsOf_append, hp, Bool.false_eq_true, if_false]
    rfl
  · simp only [Outcome.responses, hany, responsesOf_append, hr, Bool.false_eq_true, if_false]
    rfl

/-- C1 at a controller with a wired client of another MAC and a wireless client of the
searched MAC. -/
theorem no_wired_match_is_not_found_witness :
    ReadsOK scenarioConfig stdLib (oneSite [wired "00:11:22:33:44:55", wireless mac])
        ["default"] (fun _ => [(wired "00:11:22:33:44:55").2, (wireless mac).2])
      ∧ (∀ n ∈ ["default"], ∀ r ∈ [(wired "00:11:22:33:44:55").2, (wireless mac).2],
          isTarget stdLib "AA:BB:CC:DD:EE:FF" r = false)
      ∧ (handler scenarioConfig stdLib (oneSite [wired "00:11:22:33:44:55", wireless mac])
          "AA:BB:CC:DD:EE:FF").posts = []
      ∧ (handler scenarioConfig stdLib (oneSite [wired "00:11:22:33:44:55", wireless mac])
          "AA:BB:CC:DD:EE:FF").responses
        = [(400, ⟨false, "No devices found on UniFi server with mac address "
            ++ stdLib.toLower "AA:BB:CC:DD:EE:FF"⟩)]
      ∧ (handler scenarioConfig stdLib (oneSite [wired "00:11:22:33:44:55", wireless mac])
          "AA:BB:CC:DD:EE:FF").panic = none :=
  have hro := oneSite_reads [wired "00:11:22:33:44:55", wireless mac] rfl
    (by
      intro r hr
      simp only [List.map_cons, List.map_nil, List.mem_cons, List.mem_singleton,
        List.not_mem_nil, or_false] at hr
      rcases hr with rfl | rfl <;> exact ⟨rfl, rfl⟩)
  have hno : ∀ n ∈ ["default"], ∀ r ∈ [(wired "00:11:22:33:44:55").2, (wireless mac).2],
      isTarget stdLib "AA:BB:CC:DD:EE:FF" r = false := by
    intro n _ r hr
    simp only [List.mem_cons, List.mem_singleton, List.not_mem_nil, or_false] at hr
    rcases hr with rfl | rfl <;> decide
  ⟨hro, hno, no_wired_match_is_not_found scenarioConfig stdLib _ "AA:BB:CC:DD:EE:FF"
    ["default"] _ hro hno⟩

set_option maxRecDepth 100000

/-- C2 (the code departs from it): with the sites `A` and `B`, a wired client with the
searched MAC in the clients list of `A`, and a clients call of `B` answered 500, the
handler writes the two failures of the clients step of `B`, goes on with `jsonData`
still holding the clients list of `A`, and sends a second device command to
`/api/s/B/cmd/devmgr`, though `B` returned no client list. -/
theorem stale_client_list_is_scanned_again :
    handler scenarioConfig stdLib
        (twoSites (ok200 (document [wired mac]).1)
          (answered 500 "500 Internal Server Error" "oops")) mac
      = ⟨[loginCall, sitesCall, clientsCall "A", powerCycle "A", resetDone,
          clientsCall "B",
          .respond 400 ⟨false, "Error getting list of clients from UniFi server, returned "
            ++ "status code: 500 Internal Server Error. Returned message: oops"⟩,
          .respond 400 ⟨false, "Error getting list of clients from UniFi server - "
            ++ "processing JSON: unexpected end of JSON input"⟩,
          powerCycle "B", resetDone], none⟩ := by
  decide

/-- C3: the handler reads the search MAC only through `strings.ToLower`: two search MACs
with the same lower-case form give the same calls, the same responses and the same
end, whatever the controller does, and pass the test of line 160 on the same client
records. -/
theorem mac_comparison_ignores_case (config : ConfigSpecification) (lib : GoLib)
    (ctl : Controller) (s1 s2 : String) (h : lib.toLower s1 = lib.toLower s2) :
    handler config lib ctl s1 = handler config lib ctl s2
      ∧ ∀ r, isTarget lib s1 r = isTarget lib s2 r := by
  refine ⟨?_, ?_⟩
  · simp only [handler, handlerBody_lower config lib ctl s1 s2 h]
  · intro r
    simp only [isTarget, h]

/-- C3 at `AA:BB:CC:DD:EE:FF` and `aa:bb:cc:dd:ee:ff`: a request for one matches a
client recorded as the other, both ways. -/
theorem mac_comparison_ignores_case_witness :
    stdLib.toLower "AA:BB:CC:DD:EE:FF" = stdLib.toLower "aa:bb:cc:dd:ee:ff"
      ∧ (handler scenarioConfig stdLib (oneSite [wired "aa:bb:cc:dd:ee:ff"])
            "AA:BB:CC:DD:EE:FF"
          = handler scenarioConfig stdLib (oneSite [wired "aa:bb:cc:dd:ee:ff"])
            "aa:bb:cc:dd:ee:ff"
        ∧ ∀ r, isTarget stdLib "AA:BB:CC:DD:EE:FF" r = isTarget stdLib "aa:bb:cc:dd:ee:ff" r)
      ∧ isTarget stdLib "AA:BB:CC:DD:EE:FF" (wired "aa:bb:cc:dd:ee:ff").2 = true
      ∧ isTarget stdLib "aa:bb:cc:dd:ee:ff" (wired "AA:BB:CC:DD:EE:FF").2 = true
      ∧ handler scenarioConfig stdLib (oneSite [wired "AA:BB:CC:DD:EE:FF"])
            "aa:bb:cc:dd:ee:ff"
          = ⟨[loginCall, sitesCall, clientsCall "default", powerCycle "default", resetDone],
              none⟩ :=
  ⟨by decide,
    mac_comparison_ignores_case scenarioConfig stdLib (oneSite [wired "aa:bb:cc:dd:ee:ff"])
      "AA:BB:CC:DD:EE:FF" "aa:bb:cc:dd:ee:ff" (by decide),
    by decide, by decide, by decide⟩

/-- C4, as stated, fails: with the searched MAC recorded twice as a wired client the
handler writes a success response and has made two device-command POSTs. -/
theorem success_after_two_commands :
    (∃ r ∈ (handler scenarioConfig stdLib (oneSite [wired mac, wired mac]) mac).responses,
        r.2.Success = true)
      ∧ (handler scenarioConfig stdLib (oneSite [wired mac, wired mac]) mac).posts.length
          ≠ 1 := by
  decide

/-- C4, amended: for every search MAC and every controller behaviour, the success
responses written are never more than the device-command POSTs made; so a response
with `success = true` implies at least one device-command POST in that request. -/
theorem success_needs_a_command (config : ConfigSpecification) (lib : GoLib)
    (ctl : Controller) (searchMac : String) :
    ((handler config lib ctl searchMac).responses.filter fun r => r.2.Success).length
        ≤ (handler config lib ctl searchMac).posts.length
      ∧ ((∃ r ∈ (handler config lib ctl searchMac).responses, r.2.Success = true)
          → 1 ≤ (handler config lib ctl searchMac).posts.length) := by
  have h := handler_successes_le_posts config lib ctl searchMac
  refine ⟨h, ?_⟩
  rintro ⟨r, hr, hs⟩
  have hmem : r ∈ successesOf (handler config lib ctl searchMac).log :=
    List.mem_filter.mpr ⟨hr, hs⟩
  have hpos := List.length_pos_of_mem hmem
  omega

/-- C4, amended, at scenario 1 of the specification. -/
theorem success_needs_a_command_witness :
    (∃ r ∈ (handler scenarioConfig stdLib (oneSite [wired mac]) mac).responses,
        r.2.Success = true)
      ∧ 1 ≤ (handler scenarioConfig stdLib (oneSite [wired mac]) mac).posts.length :=
  ⟨by decide,
    (success_needs_a_command scenarioConfig stdLib (oneSite [wired mac]) mac).2 (by decide)⟩


/-- C5, as stated, fails: with the searched MAC recorded as a wired client on both sites
`A` and `B`, the handler sends the device command to `A`, then makes the clients call
of `B` and sends a second device command to `B`. -/
theorem second_site_is_scanned_after_a_match :
    handler scenarioConfig stdLib
        (twoSites (ok200 (document [wired mac]).1) (ok200 (document [wired mac]).1)) mac
      = ⟨[loginCall, sitesCall, clientsCall "A", powerCycle "A", resetDone,
          clientsCall "B", powerCycle "B", resetDone], none⟩
      ∧ ¬ (handler scenarioConfig stdLib
        (twoSites (ok200 (document [wired mac]).1) (ok200 (document [wired mac]).1))
          mac).posts.length ≤ 1 := by
  decide

/-- C5, amended: when the login, sites, clients and device-command calls all answer 200
with well-formed JSON (every client record with a string `mac` and a boolean `is_wired`,
those passing the test of line 160 with a string `sw_mac` and a numeric `sw_port`), the
handler does not stop at a match: besides the device
commands it makes the login call, the sites call and the clients call of every site of
the sites list, in order, and it issues as many device-command POSTs as there are
client records with `lower(mac) == lower(searchMac)` and `is_wired == true`; so at most
one POST is issued when at most one such record exists. -/
theorem every_site_is_scanned (config : ConfigSpecification) (lib : GoLib)
    (ctl : Controller) (searchMac : String) (sites : List String)
    (clients : String → List JVal) (hro : ReadsOK config lib ctl sites clients)
    (hf : ∀ n ∈ sites, ∀ r ∈ clients n,
      isTarget lib searchMac r = true → (clientSwitch r).isSome = true)
    (hc : ∀ n ∈ sites, CommandOK config lib ctl n) :
    (callsOf (handler config lib ctl searchMac).log).filter (fun c => !c.isDevCommand)
        = Call.login (loginURL config) config.Username config.Password
          :: Call.getSites (sitesURL config)
          :: sites.map (fun n => Call.getClients (clientsURL config n))
      ∧ (handler config lib ctl searchMac).posts.length
        = (targets lib searchMac sites clients).length
      ∧ ((targets lib searchMac sites clients).length ≤ 1
        → (handler config lib ctl searchMac).posts.length ≤ 1) := by
  have hrun := handler_full config lib ctl searchMac sites clients hro hf (Or.inr hc)
  have hp := congrArg List.length (posts_scan config lib searchMac clients sites hf)
  have ho := others_scan config lib searchMac clients sites
  simp only [List.length_map] at hp
  have hlen : (handler config lib ctl searchMac).posts.length
      = (targets lib searchMac sites clients).length := by
    rw [hrun, ← hp]
    simp only [Outcome.posts, postsOf_append, List.length_append]
    have h1 : postsOf [Event.call (Call.login (loginURL config) config.Username
        config.Password), Event.call (Call.getSites (sitesURL config))] = [] := rfl
    have h2 : postsOf (if (sites.any fun n => (clients n).any (isTarget lib searchMac)) = true
        then [] else [Event.respond 400 ⟨false, notFoundMessage lib searchMac⟩]) = [] := by
      split <;> rfl
    rw [h1, h2]
    simp
  refine ⟨?_, hlen, fun h => hlen ▸ h⟩
  rw [hrun]
  simp only [callsOf_append, List.filter_append, ho]
  have h2 : callsOf (if (sites.any fun n => (clients n).any (isTarget lib searchMac)) = true
      then [] else [Event.respond 400 ⟨false, notFoundMessage lib searchMac⟩]) = [] := by
    split <;> rfl
  rw [h2]
  simp [callsOf, Call.isDevCommand]

/-- C5, amended, at two sites that both hold the searched MAC as a wired client. -/
theorem every_site_is_scanned_witness :
    ReadsOK scenarioConfig stdLib
        (twoSites (ok200 (document [wired mac]).1) (ok200 (document [wired mac]).1))
        ["A", "B"] (fun _ => [(wired mac).2])
      ∧ (callsOf (handler scenarioConfig stdLib
          (twoSites (ok200 (document [wired mac]).1) (ok200 (document [wired mac]).1))
          mac).log).filter (fun c => !c.isDevCommand)
        = Call.login (loginURL scenarioConfig) scenarioConfig.Username
            scenarioConfig.Password
          :: Call.getSites (sitesURL scenarioConfig)
          :: ["A", "B"].map (fun n => Call.getClients (clientsURL scenarioConfig n))
      ∧ (handler scenarioConfig stdLib
          (twoSites (ok200 (document [wired mac]).1) (ok200 (document [wired mac]).1))
          mac).posts.length
        = (targets stdLib mac ["A", "B"] (fun _ => [(wired mac).2])).length
      ∧ ((targets stdLib mac ["A", "B"] (fun _ => [(wired mac).2])).length ≤ 1
        → (handler scenarioConfig stdLib
          (twoSites (ok200 (document [wired mac]).1) (ok200 (document [wired mac]).1))
          mac).posts.length ≤ 1) :=
  have hro := twoSites_reads [wired mac] rfl (by
    intro r hr
    simp only [List.map_cons, List.map_nil, List.mem_singleton] at hr
    subst hr
    exact ⟨rfl, rfl⟩)
  ⟨hro, every_site_is_scanned scenarioConfig stdLib _ mac ["A", "B"] _ hro
    (by
      intro n _ r hr _
      simp only [List.mem_singleton] at hr
      subst hr
      rfl)
    (fun n _ => scenario_commands _ _ _ _ ⟨_, _, rfl⟩ n)⟩

/-- C6, as stated, fails: with the searched MAC recorded twice as a wired client on site
`A` and once on site `B`, all calls answering 200, the handler writes three responses. -/
theorem three_responses_for_three_records :
    (handler scenarioConfig stdLib
        (twoSites (ok200 (document [wired mac, wired mac]).1)
          (ok200 (document [wired mac]).1)) mac).responses.length = 3
      ∧ ¬ (handler scenarioConfig stdLib
        (twoSites (ok200 (document [wired mac, wired mac]).1)
          (ok200 (document [wired mac]).1)) mac).responses.length = 1 := by
  decide

/-- C6, amended: when the login, sites, clients and device-command calls all answer 200
with well-formed JSON (every client record with a string `mac` and a boolean `is_wired`,
those passing the test of line 160 with a string `sw_mac` and a numeric `sw_port`), the
number of response writes of one invocation is the number
of client records with `lower(mac) == lower(searchMac)` and `is_wired == true`, and 1
when there is none; so it is exactly 1 when at most one such record exists. -/
theorem responses_when_calls_succeed (config : ConfigSpecification) (lib : GoLib)
    (ctl : Controller) (searchMac : String) (sites : List String)
    (clients : String → List JVal) (hro : ReadsOK config lib ctl sites clients)
    (hf : ∀ n ∈ sites, ∀ r ∈ clients n,
      isTarget lib searchMac r = true → (clientSwitch r).isSome = true)
    (hc : ∀ n ∈ sites, CommandOK config lib ctl n) :
    (handler config lib ctl searchMac).responses.length
        = max 1 (targets lib searchMac sites clients).length
      ∧ ((targets lib searchMac sites clients).length ≤ 1
        → (handler config lib ctl searchMac).responses.length = 1) := by
  have hrun := handler_full config lib ctl searchMac sites clients hro hf (Or.inr hc)
  have hr := responses_scan config lib searchMac clients sites hf
  have hany := any_target_iff lib searchMac clients sites
  have hlen : (handler config lib ctl searchMac).responses.length
      = max 1 (targets lib searchMac sites clients).length := by
    rw [hrun]
    simp only [Outcome.responses, responsesOf_append, hr, List.length_append,
      List.length_replicate]
    have h1 : responsesOf [Event.call (Call.login (loginURL config) config.Username
        config.Password), Event.call (Call.getSites (sitesURL config))] = [] := rfl
    rw [h1]
    cases h : sites.any fun n => (clients n).any (isTarget lib searchMac) with
    | true =>
      have hne := hany.mp h
      have hpos := List.length_pos.mpr hne
      simp only [if_true, responsesOf, List.length_nil]
      omega
    | false =>
      have hnil : targets lib searchMac sites clients = [] := by
        by_contra hne
        rw [hany.mpr hne] at h
        exact absurd h (by simp)
      rw [hnil]
      simp [responsesOf]
  refine ⟨hlen, fun h => ?_⟩
  rw [hlen]
  omega

/-- C6, amended, at scenario 1 of the specification. -/
theorem responses_when_calls_succeed_witness :
    ReadsOK scenarioConfig stdLib (oneSite [wired mac]) ["default"] (fun _ => [(wired mac).2])
      ∧ (handler scenarioConfig stdLib (oneSite [wired mac]) mac).responses.length
        = max 1 (targets stdLib mac ["default"] (fun _ => [(wired mac).2])).length
      ∧ ((targets stdLib mac ["default"] (fun _ => [(wired mac).2])).length ≤ 1
        → (handler scenarioConfig stdLib (oneSite [wired mac]) mac).responses.length = 1) :=
  have hro := oneSite_reads [wired mac] rfl (by
    intro r hr
    simp only [List.map_cons, List.map_nil, List.mem_singleton] at hr
    subst hr
    exact ⟨rfl, rfl⟩)
  ⟨hro, responses_when_calls_succeed scenarioConfig stdLib _ mac ["default"] _ hro
    (by
      intro n _ r hr _
      simp only [List.mem_singleton] at hr
      subst hr
      rfl)
    (fun n _ => scenario_commands _ _ _ _ ⟨_, _, rfl⟩ n)⟩

/-- C7 (the code departs from it): when the device command is answered 500, the handler
writes the failure of the command step and then, at line 200, the success response as
well: a success response is written though the command was not acknowledged. -/
theorem success_is_written_after_a_failed_command :
    handler scenarioConfig stdLib failingCommand mac
      = ⟨[loginCall, sitesCall, clientsCall "default", powerCycle "default",
          .respond 400 ⟨false, "Error requesting reset of switch port, returned status "
            ++ "code: 500 Internal Server Error. Returned message: boom"⟩,
          resetDone], none⟩ := by
  decide

/-- C8 (the code departs from it): when the login is answered 401 the handler writes the
login failure with the status line and the body, but it goes on: against a controller
that then refuses the sites call too, it writes two more failures and ends in a panic
on `jsonData.(map[string]interface{})`. -/
theorem handler_goes_on_after_a_failed_login :
    handler scenarioConfig stdLib refusing mac
      = ⟨[loginCall,
          .respond 400 ⟨false, "Error logging in to UniFi server, returned status code: "
            ++ "401 Unauthorized" ++ ". Returned message: " ++ loginRequired⟩,
          sitesCall,
          .respond 400 ⟨false, "Error getting list of available sites from UniFi server, "
            ++ "returned status code: 401 Unauthorized. Returned message: "
            ++ loginRequired⟩,
          .respond 400 ⟨false, "Error getting list of available sites from UniFi server - "
            ++ "processing JSON: unexpected end of JSON input"⟩],
          some Panic.typeAssertion⟩ := by
  decide


/-- C9, as stated, fails: with one wired client that has the searched MAC but neither
`sw_mac` nor `sw_port`, all calls answering 200, the handler writes no response at all:
it ends in the panic of the type assertion of line 162. -/
theorem record_without_switch_panics :
    handler scenarioConfig stdLib (oneSite [bare mac]) mac
      = ⟨[loginCall, sitesCall, clientsCall "default"], some Panic.typeAssertion⟩
      ∧ (handler scenarioConfig stdLib (oneSite [bare mac]) mac).responses = [] := by
  decide

/-- C9, amended: when the login, sites, clients and device-command calls all answer 200
with well-formed JSON and some client record with `lower(mac) == lower(searchMac)` and
`is_wired == true` lacks a string `sw_mac` or a numeric `sw_port`, the handler does not
treat this as a schema error: it ends in the panic of a type assertion without writing
a failure response (the responses written are success responses of records before);
it still issues no device-command POST for a record without these fields (every POST
made is the command of a record that has them, and has its success response). -/
theorem missing_switch_ends_in_panic (config : ConfigSpecification) (lib : GoLib)
    (ctl : Controller) (searchMac : String) (sites : List String)
    (clients : String → List JVal) (hro : ReadsOK config lib ctl sites clients)
    (hc : ∀ n ∈ sites, CommandOK config lib ctl n)
    (hb : ∃ n ∈ sites, ∃ r ∈ clients n,
      isTarget lib searchMac r = true ∧ clientSwitch r = none) :
    (handler config lib ctl searchMac).panic = some Panic.typeAssertion
      ∧ (∀ x ∈ (handler config lib ctl searchMac).responses,
          x = (200, successResponse lib searchMac))
      ∧ (handler config lib ctl searchMac).posts.length
          = (handler config lib ctl searchMac).responses.length
      ∧ ∀ c ∈ (handler config lib ctl searchMac).posts,
          ∃ n ∈ sites, ∃ r ∈ clients n,
            isTarget lib searchMac r = true ∧ commandFor config lib n r = some c := by
  obtain ⟨evs, ht, hrun⟩ := handler_bare config lib ctl searchMac sites clients hro hc hb
  have h1 : postsOf ([Event.call (Call.login (loginURL config) config.Username
      config.Password), Event.call (Call.getSites (sitesURL config))] ++ evs)
      = postsOf evs := by
    rw [postsOf_append]; rfl
  have h2 : responsesOf ([Event.call (Call.login (loginURL config) config.Username
      config.Password), Event.call (Call.getSites (sitesURL config))] ++ evs)
      = responsesOf evs := by
    rw [responsesOf_append]; rfl
  rw [hrun]
  refine ⟨rfl, ?_, ?_, ?_⟩
  · simp only [Outcome.responses, h2]
    exact ht.1
  · simp only [Outcome.posts, Outcome.responses, h1, h2]
    exact ht.2.1
  · simp only [Outcome.posts, h1]
    exact ht.2.2

/-- C9, amended, at a site with a full record of the searched MAC followed by one
without `sw_mac` and `sw_port`. -/
theorem missing_switch_ends_in_panic_witness :
    ReadsOK scenarioConfig stdLib (oneSite [wired mac, bare mac]) ["default"]
        (fun _ => [(wired mac).2, (bare mac).2])
      ∧ (∃ n ∈ ["default"], ∃ r ∈ [(wired mac).2, (bare mac).2],
          isTarget stdLib mac r = true ∧ clientSwitch r = none)
      ∧ (handler scenarioConfig stdLib (oneSite [wired mac, bare mac]) mac).panic
          = some Panic.typeAssertion
      ∧ (∀ x ∈ (handler scenarioConfig stdLib (oneSite [wired mac, bare mac]) mac).responses,
          x = (200, successResponse stdLib mac))
      ∧ (handler scenarioConfig stdLib (oneSite [wired mac, bare mac]) mac).posts.length
          = (handler scenarioConfig stdLib (oneSite [wired mac, bare mac]) mac).responses.length
      ∧ ∀ c ∈ (handler scenarioConfig stdLib (oneSite [wired mac, bare mac]) mac).posts,
          ∃ n ∈ ["default"], ∃ r ∈ [(wired mac).2, (bare mac).2],
            isTarget stdLib mac r = true ∧ commandFor scenarioConfig stdLib n r = some c :=
  have hro := oneSite_reads [wired mac, bare mac] rfl (by
    intro r hr
    simp only [List.map_cons, List.map_nil, List.mem_cons, List.mem_singleton,
      List.not_mem_nil, or_false] at hr
    rcases hr with rfl | rfl <;> exact ⟨rfl, rfl⟩)
  have hb : ∃ n ∈ ["default"], ∃ r ∈ [(wired mac).2, (bare mac).2],
      isTarget stdLib mac r = true ∧ clientSwitch r = none :=
    ⟨"default", List.mem_singleton.mpr rfl, (bare mac).2,
      List.mem_cons_of_mem _ (List.mem_singleton.mpr rfl), by decide, rfl⟩
  ⟨hro, hb, missing_switch_ends_in_panic scenarioConfig stdLib _ mac ["default"] _ hro
    (fun n _ => scenario_commands _ _ _ _ ⟨_, _, rfl⟩ n) hb⟩

/-- C10: when the login, sites, clients and device-command calls all answer 200 with
well-formed JSON (every client record with a string `mac` and a boolean `is_wired`,
those passing the test of line 160 with a string `sw_mac` and a numeric `sw_port`), the
device-command POSTs of the handler are exactly, site by site in
the order of the sites list and within a site in the order of its clients list, the
commands of the client records with `lower(mac) == lower(searchMac)` and
`is_wired == true`, one each; the number of POSTs and the number of success responses
written equal the number of such records; and the "No devices found" response is
written if and only if that number is 0. -/
theorem one_command_per_matching_record (config : ConfigSpecification) (lib : GoLib)
    (ctl : Controller) (searchMac : String) (sites : List String)
    (clients : String → List JVal) (hro : ReadsOK config lib ctl sites clients)
    (hf : ∀ n ∈ sites, ∀ r ∈ clients n,
      isTarget lib searchMac r = true → (clientSwitch r).isSome = true)
    (hc : ∀ n ∈ sites, CommandOK config lib ctl n) :
    (handler config lib ctl searchMac).posts.map some
        = (targets lib searchMac sites clients).map (fun t => commandFor config lib t.1 t.2)
      ∧ (handler config lib ctl searchMac).posts.length
        = (targets lib searchMac sites clients).length
      ∧ ((handler config lib ctl searchMac).responses.filter fun r => r.2.Success).length
        = (targets lib searchMac sites clients).length
      ∧ ((400, (⟨false, notFoundMessage lib searchMac⟩ : ResponseData))
          ∈ (handler config lib ctl searchMac).responses
        ↔ (targets lib searchMac sites clients).length = 0) := by
  have hrun := handler_full config lib ctl searchMac sites clients hro hf (Or.inr hc)
  have hp := posts_scan config lib searchMac clients sites hf
  have hr := responses_scan config lib searchMac clients sites hf
  have hany := any_target_iff lib searchMac clients sites
  have hposts : (handler config lib ctl searchMac).posts
      = postsOf (sites.flatMap (siteEvents config lib searchMac clients)) := by
    rw [hrun]
    simp only [Outcome.posts, postsOf_append]
    have h1 : postsOf [Event.call (Call.login (loginURL config) config.Username
        config.Password), Event.call (Call.getSites (sitesURL config))] = [] := rfl
    have h2 : postsOf (if (sites.any fun n => (clients n).any (isTarget lib searchMac)) = true
        then [] else [Event.respond 400 ⟨false, notFoundMessage lib searchMac⟩]) = [] := by
      split <;> rfl
    rw [h1, h2]
    simp
  have hresp : (handler config lib ctl searchMac).responses
      = List.replicate (targets lib searchMac sites clients).length
          (200, successResponse lib searchMac)
        ++ (if (sites.any fun n => (clients n).any (isTarget lib searchMac)) = true then []
            else [(400, ⟨false, notFoundMessage lib searchMac⟩)]) := by
    rw [hrun]
    simp only [Outcome.responses, responsesOf_append, hr]
    have h1 : responsesOf [Event.call (Call.login (loginURL config) config.Username
        config.Password), Event.call (Call.getSites (sitesURL config))] = [] := rfl
    rw [h1]
    split <;> rfl
  refine ⟨by rw [hposts, hp], ?_, ?_, ?_⟩
  · have := congrArg List.length hp
    simpa [hposts] using this
  · rw [hresp, List.filter_append, List.length_append]
    have h3 : ((List.replicate (targets lib searchMac sites clients).length
        (200, successResponse lib searchMac)).filter fun r => r.2.Success).length
        = (targets lib searchMac sites clients).length := by
      rw [List.filter_eq_self.mpr, List.length_replicate]
      intro a ha
      rw [List.eq_of_mem_replicate ha]
      rfl
    have h4 : ((if (sites.any fun n => (clients n).any (isTarget lib searchMac)) = true
        then [] else [((400 : Nat), (⟨false, notFoundMessage lib searchMac⟩ : ResponseData))]
        ).filter fun r => r.2.Success).length = 0 := by
      split <;> rfl
    rw [h3, h4]
    rfl
  · rw [hresp]
    cases h : sites.any fun n => (clients n).any (isTarget lib searchMac) with
    | true =>
      have hne := hany.mp h
      have hpos := List.length_pos.mpr hne
      simp only [if_true, List.append_nil]
      constructor
      · intro hm
        have := List.eq_of_mem_replicate hm
        simp at this
      · intro h0
        omega
    | false =>
      have hnil : targets lib searchMac sites clients = [] := by
        by_contra hne
        rw [hany.mpr hne] at h
        exact absurd h (by simp)
      rw [hnil]
      simp

/-- C10 at two sites that each hold the searched MAC as a wired and as a wireless
client. -/
theorem one_command_per_matching_record_witness :
    ReadsOK scenarioConfig stdLib
        (twoSites (ok200 (document [wired mac, wireless mac]).1)
          (ok200 (document [wired mac, wireless mac]).1))
        ["A", "B"] (fun _ => [(wired mac).2, (wireless mac).2])
      ∧ (handler scenarioConfig stdLib
          (twoSites (ok200 (document [wired mac, wireless mac]).1)
            (ok200 (document [wired mac, wireless mac]).1)) mac).posts.map some
        = (targets stdLib mac ["A", "B"] (fun _ => [(wired mac).2, (wireless mac).2])).map
            (fun t => commandFor scenarioConfig stdLib t.1 t.2)
      ∧ (handler scenarioConfig stdLib
          (twoSites (ok200 (document [wired mac, wireless mac]).1)
            (ok200 (document [wired mac, wireless mac]).1)) mac).posts.length
        = (targets stdLib mac ["A", "B"] (fun _ => [(wired mac).2, (wireless mac).2])).length
      ∧ ((handler scenarioConfig stdLib
          (twoSites (ok200 (document [wired mac, wireless mac]).1)
            (ok200 (document [wired mac, wireless mac]).1)) mac).responses.filter
            fun r => r.2.Success).length
        = (targets stdLib mac ["A", "B"] (fun _ => [(wired mac).2, (wireless mac).2])).length
      ∧ ((400, (⟨false, notFoundMessage stdLib mac⟩ : ResponseData))
          ∈ (handler scenarioConfig stdLib
            (twoSites (ok200 (document [wired mac, wireless mac]).1)
              (ok200 (document [wired mac, wireless mac]).1)) mac).responses
        ↔ (targets stdLib mac ["A", "B"]
            (fun _ => [(wired mac).2, (wireless mac).2])).length = 0) :=
  have hro := twoSites_reads [wired mac, wireless mac] rfl (by
    intro r hr
    simp only [List.map_cons, List.map_nil, List.mem_cons, List.mem_singleton,
      List.not_mem_nil, or_false] at hr
    rcases hr with rfl | rfl <;> exact ⟨rfl, rfl⟩)
  ⟨hro, one_command_per_matching_record scenarioConfig stdLib _ mac ["A", "B"] _ hro
    (by
      intro n _ r hr ht
      simp only [List.mem_cons, List.mem_singleton, List.not_mem_nil, or_false] at hr
      rcases hr with rfl | rfl
      · rfl
      · exact absurd ht (by decide))
    (fun n _ => scenario_commands _ _ _ _ ⟨_, _, rfl⟩ n)⟩


end UnifiMacReset
